import Mathlib

/-!
# webook: article publish / withdraw consistency

A shallow embedding of

* `backend/internal/repository/dao/article/gorm.go` (the GORM article DAO),
* `backend/internal/repository/article.go` (the article repository),
* `backend/internal/service/article.go` (the article service),
* `backend/internal/service/sms/async/serviceprobe/percent/percent.go` (the percent probe),

followed by the properties proved about them.

Conventions of the embedding.

* A table is the list of its rows, in primary-key scan order.  Both tables are
  keyed by `Id` (the conflict target of `Upsert`): `Create` rejects a key that is
  already present.  The theorems do not assume that the tables they start from
  are free of duplicate keys, since the guard `RowsAffected != 1` of `SyncStatus`
  provides for several matching rows.
* `time.Now().UnixMilli()`, the error a statement gets back from the driver and
  the identifier the database generates for an insert are inputs supplied by
  the environment (`Env`, `TxEnv`).
* `RowsAffected` of an `UPDATE ... WHERE` is the number of rows selected by the
  `WHERE` clause.
* A statement that gets an error from the driver writes nothing.
* `db.Transaction(fc)` runs `fc` against a transaction handle `tx`.  Statements
  issued on `tx` are staged and become visible when `fc` returns nil and the
  commit goes through; they are dropped otherwise.  Statements issued on the
  DAO's own handle `g.db` are not part of the transaction: they are committed
  one by one as they run.
-/

namespace webook

/-- Errors that travel through the DAO and the repository. -/
inductive Error where
  /-- an error reported by the database driver (`res.Error`) -/
  | driver (code : Nat)
  /-- The error `gorm.ErrRecordNotFound`, returned by `First` when no row is selected -/
  | ErrRecordNotFound
  /-- The error `errors.New("更新数据失败")` of `UpdateById` -/
  | updateFailed
  /-- the `fmt.Errorf("可能有人在攻击系统，误操作非自己的文章, id:%d, authorId:%d", id, usrId)` of `SyncStatus` -/
  | attack (id usrId : Int)
  /-- The error `cache.ErrKeyNotExisted` -/
  | ErrKeyNotExisted
  /-- any other error returned by the cache -/
  | cacheBackend (code : Nat)
  deriving DecidableEq, Repr

namespace article

/-- Row of the draft table: `article.Article`, with the fields the tests and
`toDomain` / `toEntity` use.  `Status` is a `uint8`. -/
structure Article where
  Id : Int
  Title : String
  Content : String
  AuthorId : Int
  Ctime : Int
  Utime : Int
  Status : Nat
  deriving DecidableEq, Repr

/-- Row of the live table.  The source converts with `PublishArticle(art)`, so
both row types have the same fields. -/
abbrev PublishArticle := Article

/-- The zero value `Article{}`. -/
def Article.zero : Article :=
  { Id := 0, Title := "", Content := "", AuthorId := 0, Ctime := 0, Utime := 0, Status := 0 }

/-- The two tables. -/
structure DB where
  /-- the draft store: table of `Article` -/
  articles : List Article
  /-- the live store: table of `PublishArticle` -/
  published : List PublishArticle
  deriving DecidableEq, Repr

/-- Statements sent to the database, recorded in the order they are issued. -/
inductive Stmt where
  | insertArticle
  | updateArticle
  | upsertPublished
  | updateArticleStatus
  | updatePublishedStatus
  deriving DecidableEq, Repr

/-- What the environment supplies to a DAO method that issues one statement. -/
structure Env where
  /-- value of `time.Now().UnixMilli()` -/
  now : Int
  /-- error the driver reports for the statement, if any -/
  fault : Option Error
  /-- identifier the database generates when a row is created with `Id = 0` -/
  gen : Int
  deriving DecidableEq, Repr

/-- Errors the driver reports when a transaction is opened and committed. -/
structure TxEnv where
  begin : Option Error
  commit : Option Error
  deriving DecidableEq, Repr

/-- The database as seen through a `GORMArticleDAO`. -/
structure GORMArticleDAO where
  /-- committed rows: what statements on `g.db` read and write -/
  db : DB
  /-- writes issued on the open transaction handle `tx`, oldest first -/
  staged : List (DB → DB)
  /-- every statement issued so far -/
  issued : List Stmt

/-- Rows as a statement on the transaction handle sees them. -/
def GORMArticleDAO.view (g : GORMArticleDAO) : DB :=
  g.staged.foldl (fun d w => w d) g.db

/-- Rows with the given primary key. -/
def hasId (id : Int) (r : Article) : Bool := decide (r.Id = id)

/-- The clause `WHERE id = ? AND author_id = ?`. -/
def owned (id uid : Int) (r : Article) : Bool := decide (r.Id = id ∧ r.AuthorId = uid)

/-- The assignments `title`, `content`, `utime`, `status` of `UpdateById` and of the
conflict clause of `Upsert`, applied to row `r`. -/
def assign (art r : Article) : Article :=
  { r with Title := art.Title, Content := art.Content, Utime := art.Utime, Status := art.Status }

/-- Rows after `UPDATE ... SET title, content, utime, status WHERE id = ? AND author_id = ?`. -/
def updateRows (rows : List Article) (art : Article) : List Article :=
  rows.map fun r => if owned art.Id art.AuthorId r then assign art r else r

/-- Rows after `INSERT ... ON DUPLICATE KEY UPDATE title, content, utime, status`: the row
with the same primary key is overwritten in those four columns, and the row is appended
when there is none. -/
def upsertRows (rows : List Article) (art : Article) : List Article :=
  if rows.any (hasId art.Id) then
    rows.map fun r => if hasId art.Id r then assign art r else r
  else rows ++ [art]

/-- The statement `Create(&art)`: a zero primary key is filled in by the
database, and a key that is already in the table is a duplicate. -/
def create (rows : List Article) (art : Article) (e : Env) : List Article × Article × Option Error :=
  match e.fault with
  | some err => (rows, art, some err)
  | none =>
    let art := if art.Id = 0 then { art with Id := e.gen } else art
    if rows.any (hasId art.Id) then (rows, art, some (Error.driver 1062))
    else (rows ++ [art], art, none)

/-- The function `Insert`. -/
def GORMArticleDAO.Insert (g : GORMArticleDAO) (art : Article) (e : Env) :
    GORMArticleDAO × Int × Option Error :=
  let now := e.now
  let art := { art with Ctime := now }
  let art := { art with Utime := now }
  let g := { g with issued := g.issued ++ [Stmt.insertArticle] }
  let (rows, art, err) := create g.db.articles art e
  ({ g with db := { g.db with articles := rows } }, art.Id, err)

/-- The function `UpdateById`. -/
def GORMArticleDAO.UpdateById (g : GORMArticleDAO) (art : Article) (e : Env) :
    GORMArticleDAO × Option Error :=
  let now := e.now
  let art := { art with Utime := now }
  let g := { g with issued := g.issued ++ [Stmt.updateArticle] }
  match e.fault with
  | some err => (g, some err)
  | none =>
    let RowsAffected := (g.db.articles.filter (owned art.Id art.AuthorId)).length
    let g := { g with db := { g.db with articles := updateRows g.db.articles art } }
    if RowsAffected = 0 then (g, some Error.updateFailed)
    else (g, none)

/-- The function `Upsert`: `Create` with `ON CONFLICT DO UPDATE` of title,
content, utime and status. -/
def GORMArticleDAO.Upsert (g : GORMArticleDAO) (art : PublishArticle) (e : Env) :
    GORMArticleDAO × Option Error :=
  let now := e.now
  let art := { art with Ctime := now }
  let art := { art with Utime := now }
  let g := { g with issued := g.issued ++ [Stmt.upsertPublished] }
  match e.fault with
  | some err => (g, some err)
  | none =>
    let art := if art.Id = 0 then { art with Id := e.gen } else art
    ({ g with db := { g.db with published := upsertRows g.db.published art } }, none)

/-- The method `Transaction` of `gorm.DB`: `init` is the value of the variables
the closure captures, in case the closure never runs. -/
def Transaction {α : Type} (g : GORMArticleDAO) (t : TxEnv) (init : α)
    (fc : GORMArticleDAO → GORMArticleDAO × α × Option Error) : GORMArticleDAO × α × Option Error :=
  match t.begin with
  | some err => (g, init, some err)
  | none =>
    let (tx, a, err) := fc { g with staged := [] }
    match err with
    | some err => ({ tx with staged := [] }, a, some err)
    | none =>
      match t.commit with
      | some err => ({ tx with staged := [] }, a, some err)
      | none => ({ tx with db := tx.view, staged := [] }, a, none)

/-- The function `Sync`.  The closure calls `g.UpdateById`, `g.Insert` and
`g.Upsert`, which issue their statements on `g.db`. -/
def GORMArticleDAO.Sync (g : GORMArticleDAO) (art : Article) (t : TxEnv) (e₁ e₂ : Env) :
    GORMArticleDAO × Int × Option Error :=
  let id := art.Id
  Transaction g t id fun tx =>
    let (tx, id, err) :=
      if id > 0 then
        let (tx, err) := GORMArticleDAO.UpdateById tx art e₁
        (tx, id, err)
      else GORMArticleDAO.Insert tx art e₁
    match err with
    | some err => (tx, id, some err)
    | none =>
      let art := { art with Id := id }
      let (tx, err) := GORMArticleDAO.Upsert tx art e₂
      (tx, id, err)

/-- The statement `UPDATE articles SET status, utime WHERE id = ? AND author_id = ?`. -/
def setArticleStatus (id usrId : Int) (status : Nat) (now : Int) (d : DB) : DB :=
  { d with articles := d.articles.map fun r =>
      if owned id usrId r then { r with Status := status, Utime := now } else r }

/-- The statement `UPDATE published_articles SET status, utime WHERE id = ?`. -/
def setPublishedStatus (id : Int) (status : Nat) (now : Int) (d : DB) : DB :=
  { d with published := d.published.map fun r =>
      if hasId id r then { r with Status := status, Utime := now } else r }

/-- The function `SyncStatus`.  Both statements are issued on `tx`. -/
def GORMArticleDAO.SyncStatus (g : GORMArticleDAO) (id usrId : Int) (status : Nat)
    (now : Int) (t : TxEnv) (f₁ f₂ : Option Error) : GORMArticleDAO × Option Error :=
  let (g, _, err) := Transaction g t () fun tx =>
    let tx := { tx with issued := tx.issued ++ [Stmt.updateArticleStatus] }
    match f₁ with
    | some err => (tx, (), some err)
    | none =>
      let RowsAffected := (tx.view.articles.filter (owned id usrId)).length
      let tx := { tx with staged := tx.staged ++ [setArticleStatus id usrId status now] }
      if RowsAffected ≠ 1 then (tx, (), some (Error.attack id usrId))
      else
        let tx := { tx with issued := tx.issued ++ [Stmt.updatePublishedStatus] }
        match f₂ with
        | some err => (tx, (), some err)
        | none =>
          ({ tx with staged := tx.staged ++ [setPublishedStatus id status now] }, (), none)
  (g, err)

/-- The function `FindById`: `First` of the rows selected by id and author. -/
def GORMArticleDAO.FindById (g : GORMArticleDAO) (id uid : Int) (fault : Option Error) :
    Article × Option Error :=
  match fault with
  | some err => (Article.zero, some err)
  | none =>
    match g.db.articles.find? (owned id uid) with
    | none => (Article.zero, some Error.ErrRecordNotFound)
    | some art => (art, none)

/-- The function `FindPubById`. -/
def GORMArticleDAO.FindPubById (g : GORMArticleDAO) (id : Int) (fault : Option Error) :
    PublishArticle × Option Error :=
  match fault with
  | some err => (Article.zero, some err)
  | none =>
    match g.db.published.find? (hasId id) with
    | none => (Article.zero, some Error.ErrRecordNotFound)
    | some art => (art, none)

/-- A DAO over the given tables with no transaction open and nothing issued yet. -/
def GORMArticleDAO.init (db : DB) : GORMArticleDAO :=
  { db := db, staged := [], issued := [] }

/-- The function `GetByAuthor`.  The slice `arts` is declared nil and handed to `Find` by
value.  When the driver reports an error for the query, `Find` records it and the function
returns the nil slice with that error.  When the query goes through, `Find` tries to store
the rows into the slice it was handed, which is not addressable, and panics (`none`). -/
def GORMArticleDAO.GetByAuthor (_g : GORMArticleDAO) (_uid _offset _limit : Int)
    (fault : Option Error) : Option (List Article × Option Error) :=
  match fault with
  | some err => some ([], some err)
  | none => none

/-- The interface `ArticleDAO`, with the methods the repository calls.  A method maps the
state behind the DAO to the state after the call and the values returned; `GetByAuthor`
gives `none` when the call panics. -/
structure ArticleDAO (σ : Type) where
  Insert : σ → Article → σ × Int × Option Error
  UpdateById : σ → Article → σ × Option Error
  Sync : σ → Article → σ × Int × Option Error
  SyncStatus : σ → Int → Int → Nat → σ × Option Error
  GetByAuthor : σ → Int → Int → Int → Option (σ × List Article × Option Error)
  FindById : σ → Int → Int → σ × Article × Option Error

/-- The GORM DAO as an `ArticleDAO`, every call of which runs in the given environment. -/
def GORMArticleDAO.asDAO (t : TxEnv) (e₁ e₂ : Env) : ArticleDAO GORMArticleDAO where
  Insert g art := g.Insert art e₁
  UpdateById g art := g.UpdateById art e₁
  Sync g art := g.Sync art t e₁ e₂
  SyncStatus g id usrId status := g.SyncStatus id usrId status e₁.now t e₁.fault e₂.fault
  GetByAuthor g uid offset limit :=
    match g.GetByAuthor uid offset limit e₁.fault with
    | none => none
    | some (arts, err) => some (g, arts, err)
  FindById g id uid :=
    let (art, err) := g.FindById id uid e₁.fault
    (g, art, err)

/-- A test double for `ArticleDAO`: writes succeed and report `id`, reads answer with
`rows`. -/
def fixedDAO (rows : List Article) (id : Int) : ArticleDAO Unit where
  Insert s _ := (s, id, none)
  UpdateById s _ := (s, none)
  Sync s _ := (s, id, none)
  SyncStatus s _ _ _ := (s, none)
  GetByAuthor s _ _ _ := some (s, rows, none)
  FindById s _ _ := (s, rows.headD Article.zero, none)

/-! ### Rows used by the integration tests -/

/-- Article 4 of author 233, as the test case "edit others article, fail" sets it up. -/
def othersArticle : Article :=
  { Id := 4, Title := "My tittle", Content := "My Content", AuthorId := 233,
    Ctime := 123, Utime := 678, Status := 2 }

/-- Both tables holding article 4 of author 233. -/
def othersDB : DB := { articles := [othersArticle], published := [othersArticle] }

/-- Article 3 of author 123, as the test case "update article, both repo existed" sets it up. -/
def myArticle : Article :=
  { Id := 3, Title := "My tittle", Content := "My Content", AuthorId := 123,
    Ctime := 123, Utime := 678, Status := 2 }

/-- Both tables holding article 3 of author 123. -/
def myDB : DB := { articles := [myArticle], published := [myArticle] }

/-- The article a request of author 123 carries: new title and content under the given id. -/
def request (id : Int) : Article :=
  { Id := id, Title := "New Title", Content := "new content", AuthorId := 123,
    Ctime := 0, Utime := 0, Status := 2 }

/-- An environment in which the statement goes through at the given time. -/
def Env.ok (now : Int) : Env := { now := now, fault := none, gen := 1 }

/-- An environment in which the driver reports error 2006 for the statement. -/
def Env.down (now : Int) : Env := { now := now, fault := some (Error.driver 2006), gen := 1 }

/-- A transaction that opens and commits without error. -/
def TxEnv.ok : TxEnv := { begin := none, commit := none }

/-- A draft table in which two rows carry id 3 and author 123, the case the guard
`RowsAffected != 1` of `SyncStatus` provides for. -/
def twinDB : DB := { articles := [myArticle, myArticle], published := [myArticle] }

/-- Rows keep their position, id, author and creation time from `before` to `after`. -/
def keepsIdentity (before after : List Article) : Prop :=
  ∀ (i : Nat) (r : Article), before[i]? = some r →
    ∃ r2 : Article, after[i]? = some r2 ∧ r2.Id = r.Id ∧ r2.AuthorId = r.AuthorId ∧
      r2.Ctime = r.Ctime

/-- Every id of the live table is the id of a draft row. -/
def liveInDraft (db : DB) : Prop :=
  ∀ p ∈ db.published, ∃ d ∈ db.articles, d.Id = p.Id

/-- No row of either table is removed or re-keyed from `before` to `after`. -/
def noRowRemoved (before after : DB) : Prop :=
  keepsIdentity before.articles after.articles ∧ keepsIdentity before.published after.published

end article

namespace domain

/-- The type `domain.Author`; only `Id` is used by the repository. -/
structure Author where
  Id : Int
  deriving DecidableEq, Repr

/-- The type `domain.Article`, with the fields `toDomain` fills.  `Status` is a
`domain.ArticleStatus`, an unsigned 8-bit value; `Ctime` and `Utime` are instants, kept as
milliseconds since the epoch. -/
structure Article where
  Id : Int
  Title : String
  Content : String
  Author : Author
  Status : Nat
  Ctime : Int
  Utime : Int
  deriving DecidableEq, Repr

/-- The zero value `domain.Article{}`. -/
def Article.zero : Article :=
  { Id := 0, Title := "", Content := "", Author := { Id := 0 }, Status := 0, Ctime := 0, Utime := 0 }

/-- Modelled from the spec: the constants of `domain.ArticleStatus` are not among the
sources; their numbering follows the order of the states in the spec (unknown,
unpublished, published, private). -/
def ArticleStatusUnknown : Nat := 0

/-- Modelled from the spec: the status of a draft that is not shown publicly. -/
def ArticleStatusUnpublished : Nat := 1

/-- Modelled from the spec: the status of an article visible in the live store. -/
def ArticleStatusPublished : Nat := 2

/-- Modelled from the spec: the status of a withdrawn article. -/
def ArticleStatusPrivate : Nat := 3

end domain

namespace cache

/-- The interface `ArticleCache`, with the methods the repository calls. -/
structure ArticleCache (κ : Type) where
  GetFirstPage : κ → Int → κ × List domain.Article × Option Error
  SetFirstPage : κ → Int → List domain.Article → κ × Option Error
  Get : κ → Int → Int → κ × domain.Article × Option Error
  Set : κ → domain.Article → κ × Option Error
  Delete : κ → Int → Int → κ × Option Error
  DeleteFirstPage : κ → Int → κ × Option Error

/-- Contents of the article cache: the first page of each author, the single articles, and
the errors the backend will report to the coming calls (`none`, and none once the list is
used up, for a call that goes through). -/
structure Mem where
  firstPage : List (Int × List domain.Article)
  articles : List domain.Article
  faults : List (Option Error)
  deriving DecidableEq, Repr

/-- The size above which `Set` does not store an article: 1 MiB. -/
def sizeLimit : Nat := 1024 * 1024

/-- The entry of the single-article cache for `(id, uid)`. -/
def keyed (id uid : Int) (art : domain.Article) : Bool := decide (art.Id = id ∧ art.Author.Id = uid)

/-- Modelled from the spec: the implementation of `ArticleCache` (package `cache`) is not
among the sources.  `GetFirstPage` and `Get` report `ErrKeyNotExisted` with the zero value
for an absent key; `SetFirstPage` stores at most the first 100 items; `Set` stores a single
article unless its content exceeds 1 MiB; `Delete` and `DeleteFirstPage` remove the key and
report `ErrKeyNotExisted` when it was absent; a call for which the backend reports an error
returns that error with the zero value and changes nothing. -/
def model : ArticleCache Mem where
  GetFirstPage m uid :=
    match m.faults.headD none with
    | some err => ({ m with faults := m.faults.tail }, [], some err)
    | none =>
      match m.firstPage.find? (fun p => decide (p.1 = uid)) with
      | none => ({ m with faults := m.faults.tail }, [], some Error.ErrKeyNotExisted)
      | some p => ({ m with faults := m.faults.tail }, p.2, none)
  SetFirstPage m uid arts :=
    match m.faults.headD none with
    | some err => ({ m with faults := m.faults.tail }, some err)
    | none =>
      ({ m with
          firstPage := (uid, arts.take 100) :: m.firstPage.filter (fun p => decide (p.1 ≠ uid)),
          faults := m.faults.tail }, none)
  Get m id uid :=
    match m.faults.headD none with
    | some err => ({ m with faults := m.faults.tail }, domain.Article.zero, some err)
    | none =>
      match m.articles.find? (keyed id uid) with
      | none => ({ m with faults := m.faults.tail }, domain.Article.zero, some Error.ErrKeyNotExisted)
      | some art => ({ m with faults := m.faults.tail }, art, none)
  Set m art :=
    match m.faults.headD none with
    | some err => ({ m with faults := m.faults.tail }, some err)
    | none =>
      if art.Content.utf8ByteSize > sizeLimit then ({ m with faults := m.faults.tail }, none)
      else
        ({ m with
            articles := art :: m.articles.filter (fun x => !keyed art.Id art.Author.Id x),
            faults := m.faults.tail }, none)
  Delete m id uid :=
    match m.faults.headD none with
    | some err => ({ m with faults := m.faults.tail }, some err)
    | none =>
      if m.articles.any (keyed id uid) then
        ({ m with articles := m.articles.filter (fun x => !keyed id uid x), faults := m.faults.tail }, none)
      else ({ m with faults := m.faults.tail }, some Error.ErrKeyNotExisted)
  DeleteFirstPage m uid :=
    match m.faults.headD none with
    | some err => ({ m with faults := m.faults.tail }, some err)
    | none =>
      if m.firstPage.any (fun p => decide (p.1 = uid)) then
        ({ m with firstPage := m.firstPage.filter (fun p => decide (p.1 ≠ uid)), faults := m.faults.tail },
          none)
      else ({ m with faults := m.faults.tail }, some Error.ErrKeyNotExisted)

/-- The empty cache, with a backend that reports no error. -/
def Mem.empty : Mem := { firstPage := [], articles := [], faults := [] }

end cache

namespace repository

/-- Calls the repository makes on its DAO and its cache, with their arguments. -/
inductive Call where
  | Insert (art : article.Article)
  | UpdateById (art : article.Article)
  | Sync (art : article.Article)
  | SyncStatus (id usrId : Int) (status : Nat)
  | GetByAuthor (uid offset limit : Int)
  | FindById (id uid : Int)
  | GetFirstPage (uid : Int)
  | SetFirstPage (uid : Int) (arts : List domain.Article)
  | Get (id uid : Int)
  | Set (art : domain.Article)
  | Delete (id uid : Int)
  | DeleteFirstPage (uid : Int)
  deriving DecidableEq, Repr

/-- Whether a call goes to the cache (and not to the DAO). -/
def Call.isCache : Call → Bool
  | Call.GetFirstPage _ => true
  | Call.SetFirstPage _ _ => true
  | Call.Get _ _ => true
  | Call.Set _ => true
  | Call.Delete _ _ => true
  | Call.DeleteFirstPage _ => true
  | _ => false

/-- The struct `articleRepository`: the DAO and the cache it is built with, the state
behind each of them, the messages handed to `log.Error`, and the calls made so far. -/
structure articleRepository (σ κ : Type) where
  artDao : article.ArticleDAO σ
  cache : cache.ArticleCache κ
  store : σ
  mem : κ
  log : List String
  calls : List Call

/-- What a method leaves behind: the repository when it returns, the values it returns
(`none` when it panics), and the body of the goroutine it started, if any.  A goroutine
body maps the repository to the repository it leaves and tells whether it panicked. -/
structure Ret (σ κ α : Type) where
  st : articleRepository σ κ
  out : Option α
  go : Option (articleRepository σ κ → articleRepository σ κ × Bool)

/-- The repository once the goroutine of the call has run to its end, and whether the
goroutine panicked. -/
def Ret.wait {σ κ α : Type} (r : Ret σ κ α) : articleRepository σ κ × Bool :=
  match r.go with
  | none => (r.st, false)
  | some body => body r.st

/-- Addition of two `int` values (64 bits, wrapping). -/
def addInt (x y : Int) : Int := (x + y + 2 ^ 63) % 2 ^ 64 - 2 ^ 63

/-- The slice expression `s[lo:hi]` on a slice whose capacity is its length: it panics
(`none`) unless `0 ≤ lo ≤ hi ≤ len(s)`. -/
def slice {α : Type} (s : List α) (lo hi : Int) : Option (List α) :=
  if 0 ≤ lo ∧ lo ≤ hi ∧ hi ≤ s.length then some ((s.take hi.toNat).drop lo.toNat) else none

/-- The function `toDomain`. -/
def toDomain (src : article.Article) : domain.Article :=
  { Id := src.Id, Title := src.Title, Content := src.Content, Author := { Id := src.AuthorId },
    Status := src.Status, Ctime := src.Ctime, Utime := src.Utime }

/-- The function `toEntity`. -/
def toEntity (art : domain.Article) : article.Article :=
  { Id := art.Id, Title := art.Title, Content := art.Content, AuthorId := art.Author.Id,
    Status := art.Status, Ctime := 0, Utime := 0 }

section

variable {σ κ : Type}

/-- A call of `a.log.Error`. -/
def articleRepository.logError (a : articleRepository σ κ) (msg : String) : articleRepository σ κ :=
  { a with log := a.log ++ [msg] }

/-- A call of `a.artDao.Insert`. -/
def articleRepository.daoInsert (a : articleRepository σ κ) (art : article.Article) :
    articleRepository σ κ × Int × Option Error :=
  let (s, id, err) := a.artDao.Insert a.store art
  ({ a with store := s, calls := a.calls ++ [Call.Insert art] }, id, err)

/-- A call of `a.artDao.UpdateById`. -/
def articleRepository.daoUpdateById (a : articleRepository σ κ) (art : article.Article) :
    articleRepository σ κ × Option Error :=
  let (s, err) := a.artDao.UpdateById a.store art
  ({ a with store := s, calls := a.calls ++ [Call.UpdateById art] }, err)

/-- A call of `a.artDao.Sync`. -/
def articleRepository.daoSync (a : articleRepository σ κ) (art : article.Article) :
    articleRepository σ κ × Int × Option Error :=
  let (s, id, err) := a.artDao.Sync a.store art
  ({ a with store := s, calls := a.calls ++ [Call.Sync art] }, id, err)

/-- A call of `a.artDao.SyncStatus`. -/
def articleRepository.daoSyncStatus (a : articleRepository σ κ) (id usrId : Int) (status : Nat) :
    articleRepository σ κ × Option Error :=
  let (s, err) := a.artDao.SyncStatus a.store id usrId status
  ({ a with store := s, calls := a.calls ++ [Call.SyncStatus id usrId status] }, err)

/-- A call of `a.artDao.GetByAuthor`; the second component is `none` when the call
panics. -/
def articleRepository.daoGetByAuthor (a : articleRepository σ κ) (uid offset limit : Int) :
    articleRepository σ κ × Option (List article.Article × Option Error) :=
  match a.artDao.GetByAuthor a.store uid offset limit with
  | none => ({ a with calls := a.calls ++ [Call.GetByAuthor uid offset limit] }, none)
  | some (s, res, err) =>
    ({ a with store := s, calls := a.calls ++ [Call.GetByAuthor uid offset limit] }, some (res, err))

/-- A call of `a.artDao.FindById`. -/
def articleRepository.daoFindById (a : articleRepository σ κ) (id uid : Int) :
    articleRepository σ κ × article.Article × Option Error :=
  let (s, art, err) := a.artDao.FindById a.store id uid
  ({ a with store := s, calls := a.calls ++ [Call.FindById id uid] }, art, err)

/-- A call of `a.cache.GetFirstPage`. -/
def articleRepository.cacheGetFirstPage (a : articleRepository σ κ) (uid : Int) :
    articleRepository σ κ × List domain.Article × Option Error :=
  let (m, arts, err) := a.cache.GetFirstPage a.mem uid
  ({ a with mem := m, calls := a.calls ++ [Call.GetFirstPage uid] }, arts, err)

/-- A call of `a.cache.SetFirstPage`. -/
def articleRepository.cacheSetFirstPage (a : articleRepository σ κ) (uid : Int)
    (arts : List domain.Article) : articleRepository σ κ × Option Error :=
  let (m, err) := a.cache.SetFirstPage a.mem uid arts
  ({ a with mem := m, calls := a.calls ++ [Call.SetFirstPage uid arts] }, err)

/-- A call of `a.cache.Get`. -/
def articleRepository.cacheGet (a : articleRepository σ κ) (id uid : Int) :
    articleRepository σ κ × domain.Article × Option Error :=
  let (m, art, err) := a.cache.Get a.mem id uid
  ({ a with mem := m, calls := a.calls ++ [Call.Get id uid] }, art, err)

/-- A call of `a.cache.Set`. -/
def articleRepository.cacheSet (a : articleRepository σ κ) (art : domain.Article) :
    articleRepository σ κ × Option Error :=
  let (m, err) := a.cache.Set a.mem art
  ({ a with mem := m, calls := a.calls ++ [Call.Set art] }, err)

/-- A call of `a.cache.Delete`. -/
def articleRepository.cacheDelete (a : articleRepository σ κ) (id uid : Int) :
    articleRepository σ κ × Option Error :=
  let (m, err) := a.cache.Delete a.mem id uid
  ({ a with mem := m, calls := a.calls ++ [Call.Delete id uid] }, err)

/-- A call of `a.cache.DeleteFirstPage`. -/
def articleRepository.cacheDeleteFirstPage (a : articleRepository σ κ) (uid : Int) :
    articleRepository σ κ × Option Error :=
  let (m, err) := a.cache.DeleteFirstPage a.mem uid
  ({ a with mem := m, calls := a.calls ++ [Call.DeleteFirstPage uid] }, err)

/-- The statement `if err != nil && err != cache.ErrKeyNotExisted { a.log.Error(msg, ...) }`. -/
def articleRepository.logCacheError (a : articleRepository σ κ) (err : Option Error) (msg : String) :
    articleRepository σ κ :=
  if err ≠ none ∧ err ≠ some Error.ErrKeyNotExisted then a.logError msg else a

/-- The function `Create`. -/
def articleRepository.Create (a : articleRepository σ κ) (art : domain.Article) :
    articleRepository σ κ × Int × Option Error :=
  let (a, id, err) := a.daoInsert (toEntity art)
  match err with
  | some err => (a, 0, some err)
  | none =>
    let uid := art.Author.Id
    let (a, err) := a.cacheDeleteFirstPage uid
    let a := a.logCacheError err "清除第一页缓存失败"
    (a, id, err)

/-- The function `Update`. -/
def articleRepository.Update (a : articleRepository σ κ) (art : domain.Article) :
    articleRepository σ κ × Option Error :=
  let (a, err) := a.daoUpdateById (toEntity art)
  match err with
  | some err => (a, some err)
  | none =>
    let uid := art.Author.Id
    let (a, err) := a.cacheDeleteFirstPage uid
    let a := a.logCacheError err "清除第一页缓存失败"
    let (a, err) := a.cacheDelete art.Id art.Author.Id
    let a := a.logCacheError err "清除文章缓存失败"
    (a, none)

/-- The function `Sync`. -/
def articleRepository.Sync (a : articleRepository σ κ) (art : domain.Article) :
    articleRepository σ κ × Int × Option Error :=
  let (a, id, err) := a.daoSync (toEntity art)
  match err with
  | some err => (a, 0, some err)
  | none =>
    let art := { art with Id := id }
    let uid := art.Author.Id
    let (a, err) := a.cacheDeleteFirstPage uid
    let a := a.logCacheError err "清除第一页缓存失败"
    let (a, err) := a.cacheDelete art.Id art.Author.Id
    let a := a.logCacheError err "清除文章缓存失败"
    (a, id, err)

/-- The function `SyncStatus`. -/
def articleRepository.SyncStatus (a : articleRepository σ κ) (id usrId : Int) (status : Nat) :
    articleRepository σ κ × Option Error :=
  let (a, err) := a.daoSyncStatus id usrId status
  match err with
  | some err => (a, some err)
  | none =>
    let (a, err) := a.cacheDeleteFirstPage usrId
    let a := a.logCacheError err "清除第一页缓存失败"
    let (a, err) := a.cacheDelete id usrId
    let a := a.logCacheError err "清除文章缓存失败"
    (a, err)

/-- The constant `CacheDataThreshold` of `preCache`. -/
def CacheDataThreshold : Nat := 1024 * 1024

/-- The function `preCache`. -/
def articleRepository.preCache (a : articleRepository σ κ) (arts : List domain.Article) :
    articleRepository σ κ :=
  match arts with
  | [] => a
  | first :: _ =>
    if first.Content.utf8ByteSize < CacheDataThreshold then
      let (a, err) := a.cacheSet first
      if err ≠ none then a.logError "提前预缓存失败" else a
    else a

/-- The goroutine started on the slow path of `List`. -/
def articleRepository.refreshFirstPage (id offset limit : Int) (data : List domain.Article)
    (a : articleRepository σ κ) : articleRepository σ κ × Bool :=
  if offset = 0 ∧ limit ≥ 100 then
    match slice data 0 100 with
    | none => (a, true)
    | some page =>
      let (a, err) := a.cacheSetFirstPage id page
      let a := if err ≠ none then a.logError "refresh first page article failed" else a
      (a.preCache data, false)
  else (a.preCache data, false)

/-- The slow path of `List`, from the comment `慢路径` on. -/
def articleRepository.listSlow (a : articleRepository σ κ) (id offset limit : Int) :
    Ret σ κ (List domain.Article × Option Error) :=
  let (a, r) := a.daoGetByAuthor id offset limit
  match r with
  | none => { st := a, out := none, go := none }
  | some (_, some err) => { st := a, out := some ([], some err), go := none }
  | some (res, none) =>
    let data := res.map toDomain
    { st := a, out := some (data, none),
      go := some (articleRepository.refreshFirstPage id offset limit data) }

/-- The function `List`. -/
def articleRepository.List (a : articleRepository σ κ) (id offset limit : Int) :
    Ret σ κ (List domain.Article × Option Error) :=
  if addInt offset limit ≤ 100 then
    let (a, arts, err) := a.cacheGetFirstPage id
    match err with
    | none =>
      { st := a, go := some (fun a => (a.preCache arts, false)),
        out := (slice arts offset limit).map fun page => (page, none) }
    | some err =>
      let a :=
        if err ≠ Error.ErrKeyNotExisted then
          a.logError "Get author article cache form cache failed"
        else a
      a.listSlow id offset limit
  else a.listSlow id offset limit

/-- The function `GetById`. -/
def articleRepository.GetById (a : articleRepository σ κ) (id uid : Int) :
    Ret σ κ (domain.Article × Option Error) :=
  let (a, art, err) := a.cacheGet id uid
  match err with
  | none => { st := a, out := some (art, none), go := none }
  | some _ =>
    let (a, dArt, err) := a.daoFindById id uid
    match err with
    | some err => { st := a, out := some (domain.Article.zero, some err), go := none }
    | none =>
      { st := a, out := some (toDomain dArt, none),
        go := some fun a =>
          let (a, err) := a.cacheSet art
          (if err ≠ none then a.logError "缓存文章数据失败" else a, false) }

end

/-- The function `NewArticleRepository`, given also the state behind the DAO and behind
the cache. -/
def NewArticleRepository {σ κ : Type} (d : article.ArticleDAO σ) (store : σ)
    (c : cache.ArticleCache κ) (mem : κ) : articleRepository σ κ :=
  { artDao := d, cache := c, store := store, mem := mem, log := [], calls := [] }

/-! ### Sample data -/

/-- The article of the test case "new article edit success", as author 123 sends it. -/
def newArticle : domain.Article :=
  { Id := 0, Title := "A Title", Content := "This is content", Author := { Id := 123 },
    Status := 1, Ctime := 0, Utime := 0 }

/-- A cache whose backend reports error 1 to the next two calls. -/
def brokenCache : cache.Mem :=
  { firstPage := [], articles := [], faults := [some (Error.cacheBackend 1), some (Error.cacheBackend 1)] }

/-- A repository over the GORM DAO on the given tables, every statement going through at
time 1000, and over the given cache. -/
def gormRepository (db : article.DB) (mem : cache.Mem) :
    articleRepository article.GORMArticleDAO cache.Mem :=
  NewArticleRepository
    (article.GORMArticleDAO.asDAO article.TxEnv.ok (article.Env.ok 1000) (article.Env.ok 1000))
    (article.GORMArticleDAO.init db) cache.model mem

/-- A repository over the GORM DAO on the given tables, the driver reporting error 2006 for
every statement, and over the given cache. -/
def downRepository (db : article.DB) (mem : cache.Mem) :
    articleRepository article.GORMArticleDAO cache.Mem :=
  NewArticleRepository
    (article.GORMArticleDAO.asDAO article.TxEnv.ok (article.Env.down 1000) (article.Env.down 1000))
    (article.GORMArticleDAO.init db) cache.model mem

/-- Article number `i` of author 123, last updated at time `1000 - i`. -/
def sample (i : Int) : domain.Article :=
  { Id := i, Title := "A Title", Content := "This is content", Author := { Id := 123 },
    Status := 1, Ctime := 100, Utime := 1000 - i }

/-- A cache holding a first page of six articles for author 123. -/
def sixCached : cache.Mem :=
  { firstPage := [(123, [sample 1, sample 2, sample 3, sample 4, sample 5, sample 6])],
    articles := [], faults := [] }

/-- A repository whose DAO answers every read with `rows`, over the given cache. -/
def fixedRepository (rows : List article.Article) (mem : cache.Mem) :
    articleRepository Unit cache.Mem :=
  NewArticleRepository (article.fixedDAO rows 1) () cache.model mem

/-- The draft row behind `sample i`. -/
def sampleRow (i : Int) : article.Article :=
  { Id := i, Title := "A Title", Content := "This is content", AuthorId := 123,
    Status := 1, Ctime := 100, Utime := 1000 - i }

/-- A cache holding article 2 of author 123 and no first page. -/
def oneCached : cache.Mem := { firstPage := [], articles := [sample 2], faults := [] }

/-- No article held by the single-article cache has a content of 1 MiB or more. -/
def smallOnly (m : cache.Mem) : Prop :=
  ∀ art ∈ m.articles, art.Content.utf8ByteSize < 1024 * 1024

/-- A repository over the modelled cache whose single-article cache holds no article with
a content of 1 MiB or more. -/
def articleRepository.sizeGated {σ : Type} (a : articleRepository σ cache.Mem) : Prop :=
  a.cache = cache.model ∧ smallOnly a.mem

end repository

namespace service

/-- The struct `articleService`: the repository it is built on. -/
structure articleService (σ κ : Type) where
  r : repository.articleRepository σ κ

section

variable {σ κ : Type}

/-- The function `Save`. -/
def articleService.Save (a : articleService σ κ) (art : domain.Article) :
    articleService σ κ × Int × Option Error :=
  let art := { art with Status := domain.ArticleStatusUnpublished }
  if art.Id > 0 then
    let (r, err) := a.r.Update art
    ({ a with r := r }, art.Id, err)
  else
    let (r, id, err) := a.r.Create art
    ({ a with r := r }, id, err)

/-- The function `Publish`. -/
def articleService.Publish (a : articleService σ κ) (art : domain.Article) :
    articleService σ κ × Int × Option Error :=
  let art := { art with Status := domain.ArticleStatusPublished }
  let (r, id, err) := a.r.Sync art
  ({ a with r := r }, id, err)

/-- The function `Withdraw`. -/
def articleService.Withdraw (a : articleService σ κ) (id usrId : Int) :
    articleService σ κ × Option Error :=
  let (r, err) := a.r.SyncStatus id usrId domain.ArticleStatusPrivate
  ({ a with r := r }, err)

end

/-- The function `NewArticleService`. -/
def NewArticleService {σ κ : Type} (r : repository.articleRepository σ κ) : articleService σ κ :=
  { r := r }

end service

namespace percent

/-- The float64 operations of the probe, left uninterpreted: `quot m d` stands for
`float64(m) / float64(d)` and `gt x y` for `x > y`. -/
structure Float64 (F : Type) where
  quot : Int → Int → F
  gt : F → F → Bool

/-- The struct `Percent`.  A value of type `error` is an `Option E`, `none` being `nil`;
`size` and `index` are the non-negative `int` values they are in the source. -/
structure Percent (E F : Type) where
  size : Nat
  index : Nat
  molecular : Int
  isFilled : Bool
  arr : List (Option E)
  isMolecular : Option E → Bool
  threshod : F

section

variable {E F : Type}

/-- The function `NewPercent`. -/
def NewPercent (size : Nat) (isMolecular : Option E → Bool) (threshod : F) : Percent E F :=
  { size := size, index := 0, molecular := 0, isFilled := false,
    arr := List.replicate size none, isMolecular := isMolecular, threshod := threshod }

/-- The function `isCrashedWithoutLock`. -/
def Percent.isCrashedWithoutLock (ops : Float64 F) (p : Percent E F) : Bool :=
  let res :=
    if p.isFilled then ops.quot p.molecular p.size
    else ops.quot p.molecular p.index
  ops.gt res p.threshod

/-- The function `Add`; `none` when it panics (index out of range, or remainder by zero). -/
def Percent.Add (ops : Float64 F) (p : Percent E F) (err : Option E) : Option (Percent E F × Bool) :=
  if p.index < p.arr.length ∧ p.size ≠ 0 then
    let p :=
      if p.isFilled && p.isMolecular (p.arr.getD p.index none) then
        { p with molecular := p.molecular - 1 }
      else p
    let p := { p with arr := p.arr.set p.index err }
    let p := { p with index := (p.index + 1) % p.size }
    let p := if p.isMolecular err then { p with molecular := p.molecular + 1 } else p
    let p := if p.index = 0 ∧ !p.isFilled then { p with isFilled := true } else p
    some (p, p.isCrashedWithoutLock ops)
  else none

/-- The function `IsCrashed`. -/
def Percent.IsCrashed (ops : Float64 F) (p : Percent E F) : Bool :=
  p.isCrashedWithoutLock ops

/-- The probe after `Add` has been called with each value of the list in turn; `none`
when one of the calls panics. -/
def Percent.addAll (ops : Float64 F) (p : Percent E F) : List (Option E) → Option (Percent E F)
  | [] => some p
  | err :: rest =>
    match p.Add ops err with
    | none => none
    | some (p2, _) => Percent.addAll ops p2 rest

end

/-- A reading of the float64 operations in which a quotient is kept as the pair of its
operands and compared exactly (for positive denominators). -/
def exactOps : Float64 (Int × Int) :=
  { quot := fun m d => (m, d), gt := fun x y => decide (x.1 * y.2 > y.1 * x.2) }

/-- The probe follows the values added so far: its fields are those of a probe of the
given size, `index` is the number of values modulo the size, `isFilled` tells whether at
least `size` values were added, `molecular` counts the values among the last `size` ones
for which `isMolecular` holds, and the array holds the last `size` values, value number
`j` at position `j % size`. -/
def Percent.tracks {E F : Type} (size : Nat) (f : Option E → Bool) (th : F) (p : Percent E F)
    (errs : List (Option E)) : Prop :=
  p.size = size ∧ p.arr.length = size ∧ p.isMolecular = f ∧ p.threshod = th ∧
  p.index = errs.length % size ∧ p.isFilled = decide (size ≤ errs.length) ∧
  p.molecular = (((errs.drop (errs.length - size)).countP f : Nat) : Int) ∧
  ∀ (j : Nat) (x : Option E), errs[j]? = some x → errs.length ≤ j + size →
    p.arr[j % size]? = some x

end percent

end webook

namespace webook

open article repository

/-! ## Helper lemmas on tables -/

theorem map_ite_eq_self {α : Type} (p : α → Bool) (f : α → α) (rows : List α)
    (h : ∀ r ∈ rows, p r = false) :
    rows.map (fun r => if p r then f r else r) = rows := by
  induction rows with
  | nil => rfl
  | cons a l ih =>
    have ha : p a = false := h a (List.mem_cons_self a l)
    have hl : ∀ r ∈ l, p r = false := fun r hr => h r (List.mem_cons_of_mem a hr)
    simp [ha, ih hl]

theorem filter_eq_nil_of_false {α : Type} (p : α → Bool) (rows : List α)
    (h : ∀ r ∈ rows, p r = false) : rows.filter p = [] := by
  induction rows with
  | nil => rfl
  | cons a l ih =>
    have ha : p a = false := h a (List.mem_cons_self a l)
    have hl : ∀ r ∈ l, p r = false := fun r hr => h r (List.mem_cons_of_mem a hr)
    simp [ha, ih hl]

theorem owned_false_of_other_author (rows : List Article) (id X Y : Int) (hXY : Y ≠ X)
    (hown : ∀ r ∈ rows, r.Id = id → r.AuthorId = X) :
    ∀ r ∈ rows, owned id Y r = false := by
  intro r hr
  unfold owned
  simp only [decide_eq_false_iff_not, not_and]
  intro hid hY
  exact hXY (hY ▸ hown r hr hid)

theorem updateRows_eq_self (rows : List Article) (art : Article)
    (h : ∀ r ∈ rows, owned art.Id art.AuthorId r = false) : updateRows rows art = rows :=
  map_ite_eq_self _ _ rows h

/-! ## Ownership -/

/-- C1: when every draft row with the given id belongs to author X, and Y is another
author, UpdateById for (id, Y) and SyncStatus (id, Y, status) both return an error and
leave the draft table and the live table as they were. -/
theorem edit_others_article_fails (g : GORMArticleDAO) (id X Y : Int) (hXY : Y ≠ X)
    (hex : ∃ r ∈ g.db.articles, r.Id = id)
    (hown : ∀ r ∈ g.db.articles, r.Id = id → r.AuthorId = X)
    (art : Article) (hid : art.Id = id) (hY : art.AuthorId = Y) (e : Env)
    (status : Nat) (now : Int) (t : TxEnv) (f₁ f₂ : Option Error) :
    (g.UpdateById art e).2 ≠ none ∧ (g.UpdateById art e).1.db = g.db ∧
    (g.SyncStatus id Y status now t f₁ f₂).2 ≠ none ∧
    (g.SyncStatus id Y status now t f₁ f₂).1.db = g.db := by
  have _ := hex
  subst hid hY
  have hf := owned_false_of_other_author g.db.articles art.Id X art.AuthorId hXY hown
  have hnil := filter_eq_nil_of_false (owned art.Id art.AuthorId) g.db.articles hf
  have hmap : ∀ n, updateRows g.db.articles { art with Utime := n } = g.db.articles :=
    fun n => updateRows_eq_self _ _ hf
  refine ⟨?_, ?_, ?_, ?_⟩
  · unfold GORMArticleDAO.UpdateById
    cases e.fault <;> simp [hnil]
  · unfold GORMArticleDAO.UpdateById
    cases e.fault
    · simp only [hmap, hnil, List.length_nil, if_true]
    · rfl
  · unfold GORMArticleDAO.SyncStatus Transaction
    cases t.begin <;> cases f₁ <;> simp [GORMArticleDAO.view, hnil]
  · unfold GORMArticleDAO.SyncStatus Transaction
    cases t.begin <;> cases f₁ <;> simp [GORMArticleDAO.view, hnil]

theorem find_map_update {α : Type} (p : α → Bool) (f : α → α) (rows : List α)
    (hp : ∀ r, p r = true → p (f r) = true) :
    (rows.map (fun r => if p r then f r else r)).find? p = (rows.find? p).map f := by
  induction rows with
  | nil => rfl
  | cons a l ih =>
    by_cases ha : p a = true
    · simp [ha, hp a ha]
    · simp [ha, ih]

theorem find_append_new {α : Type} (p : α → Bool) (rows : List α) (a : α)
    (h : ∀ r ∈ rows, p r = false) (ha : p a = true) :
    (rows ++ [a]).find? p = some a := by
  induction rows with
  | nil => simp [ha]
  | cons b l ih =>
    have hb : p b = false := h b (List.mem_cons_self b l)
    have hl : ∀ r ∈ l, p r = false := fun r hr => h r (List.mem_cons_of_mem b hr)
    simp [hb, ih hl]

theorem find_isSome_of_filter_ne_nil {α : Type} (p : α → Bool) (rows : List α)
    (h : (rows.filter p).length ≠ 0) : ∃ r, rows.find? p = some r ∧ p r = true := by
  induction rows with
  | nil => simp at h
  | cons a l ih =>
    by_cases ha : p a = true
    · exact ⟨a, by simp [ha], ha⟩
    · simp only [List.filter_cons, ha] at h
      obtain ⟨r, hr, hpr⟩ := ih h
      exact ⟨r, by simp [ha, hr], hpr⟩

/-- C2: when every draft row with the article's id (> 0) belongs to an author other than
the caller, Sync returns an error, issues no upsert on the live table, and leaves both
tables as they were. -/
theorem publish_others_article_fails (g : GORMArticleDAO) (X : Int) (art : Article)
    (hpos : 0 < art.Id) (hXY : art.AuthorId ≠ X)
    (hex : ∃ r ∈ g.db.articles, r.Id = art.Id)
    (hown : ∀ r ∈ g.db.articles, r.Id = art.Id → r.AuthorId = X)
    (t : TxEnv) (e₁ e₂ : Env) :
    (g.Sync art t e₁ e₂).2.2 ≠ none ∧
    Stmt.upsertPublished ∉ (g.Sync art t e₁ e₂).1.issued.drop g.issued.length ∧
    (g.Sync art t e₁ e₂).1.db = g.db := by
  have _ := hex
  have hf := owned_false_of_other_author g.db.articles art.Id X art.AuthorId hXY hown
  have hnil := filter_eq_nil_of_false (owned art.Id art.AuthorId) g.db.articles hf
  have hmap : ∀ n, updateRows g.db.articles { art with Utime := n } = g.db.articles :=
    fun n => updateRows_eq_self _ _ hf
  have hU : GORMArticleDAO.UpdateById { g with staged := [] } art e₁ =
      (match e₁.fault with
       | some err => ({ g with staged := [], issued := g.issued ++ [Stmt.updateArticle] }, some err)
       | none => ({ g with staged := [], issued := g.issued ++ [Stmt.updateArticle] },
                  some Error.updateFailed)) := by
    unfold GORMArticleDAO.UpdateById
    cases e₁.fault
    · simp only [hmap, hnil, List.length_nil, if_true]
    · rfl
  unfold GORMArticleDAO.Sync Transaction
  cases hb : t.begin
  · simp only [hpos, if_true, hU]
    cases e₁.fault <;> simp
  · simp

/-! ## Publish consistency -/

theorem find_of_any {α : Type} (p : α → Bool) (rows : List α) (h : rows.any p = true) :
    ∃ r, rows.find? p = some r ∧ p r = true := by
  induction rows with
  | nil => simp at h
  | cons a l ih =>
    by_cases ha : p a = true
    · exact ⟨a, by simp [ha], ha⟩
    · simp only [List.any_cons, ha, Bool.false_or] at h
      obtain ⟨r, hr, hpr⟩ := ih h
      exact ⟨r, by simp [ha, hr], hpr⟩

theorem Upsert_fault (g : GORMArticleDAO) (art : Article) (e : Env) (err : Error)
    (hf : e.fault = some err) :
    g.Upsert art e = ({ g with issued := g.issued ++ [Stmt.upsertPublished] }, some err) := by
  unfold GORMArticleDAO.Upsert
  simp only [hf]

theorem Upsert_ok (g : GORMArticleDAO) (art : Article) (e : Env) (hf : e.fault = none)
    (hid : art.Id ≠ 0) :
    g.Upsert art e =
      ({ g with
          db := { g.db with published := upsertRows g.db.published { art with Ctime := e.now, Utime := e.now } },
          issued := g.issued ++ [Stmt.upsertPublished] }, none) := by
  unfold GORMArticleDAO.Upsert
  simp only [hf, hid, if_false]

theorem UpdateById_fault (g : GORMArticleDAO) (art : Article) (e : Env) (err : Error)
    (hf : e.fault = some err) :
    g.UpdateById art e = ({ g with issued := g.issued ++ [Stmt.updateArticle] }, some err) := by
  unfold GORMArticleDAO.UpdateById
  simp only [hf]

theorem UpdateById_ok (g : GORMArticleDAO) (art : Article) (e : Env) (hf : e.fault = none) :
    g.UpdateById art e =
      ({ g with
          db := { g.db with articles := updateRows g.db.articles { art with Utime := e.now } },
          issued := g.issued ++ [Stmt.updateArticle] },
        if (g.db.articles.filter (owned art.Id art.AuthorId)).length = 0
        then some Error.updateFailed else none) := by
  unfold GORMArticleDAO.UpdateById
  simp only [hf]
  split <;> rfl

theorem Insert_fault (g : GORMArticleDAO) (art : Article) (e : Env) (err : Error)
    (hf : e.fault = some err) :
    g.Insert art e = ({ g with issued := g.issued ++ [Stmt.insertArticle] }, art.Id, some err) := by
  unfold GORMArticleDAO.Insert create
  simp only [hf]

theorem Insert_ok (g : GORMArticleDAO) (art : Article) (e : Env) (hf : e.fault = none) :
    g.Insert art e =
      if g.db.articles.any (hasId (if art.Id = 0 then e.gen else art.Id)) then
        ({ g with issued := g.issued ++ [Stmt.insertArticle] },
          (if art.Id = 0 then e.gen else art.Id), some (Error.driver 1062))
      else
        ({ g with
            db := { g.db with articles := g.db.articles ++
              [{ art with Id := (if art.Id = 0 then e.gen else art.Id), Ctime := e.now, Utime := e.now }] },
            issued := g.issued ++ [Stmt.insertArticle] },
          (if art.Id = 0 then e.gen else art.Id), none) := by
  unfold GORMArticleDAO.Insert create
  simp only [hf]
  by_cases h0 : art.Id = 0
  · simp only [h0, if_true]
    split <;> rfl
  · simp only [h0, if_false]
    split <;> rfl

/-- After an Upsert that the driver accepts, the live row with the article's id carries
the article's title, content and status, and the draft table is untouched. -/
theorem Upsert_post (g : GORMArticleDAO) (art : Article) (e : Env) (hid : art.Id ≠ 0)
    (hok : (g.Upsert art e).2 = none) :
    (g.Upsert art e).1.db.articles = g.db.articles ∧
    (g.Upsert art e).1.staged = g.staged ∧
    ∃ p, (g.Upsert art e).1.db.published.find? (hasId art.Id) = some p ∧ p.Id = art.Id ∧
      p.Title = art.Title ∧ p.Content = art.Content ∧ p.Status = art.Status := by
  cases hf : e.fault with
  | some err => rw [Upsert_fault g art e err hf] at hok; simp at hok
  | none =>
    rw [Upsert_ok g art e hf hid]
    refine ⟨rfl, rfl, ?_⟩
    by_cases hany : g.db.published.any (hasId art.Id) = true
    · obtain ⟨r, hr, hpr⟩ := find_of_any _ _ hany
      have hId : r.Id = art.Id := by simpa [hasId] using hpr
      refine ⟨assign { art with Ctime := e.now, Utime := e.now } r, ?_, hId, rfl, rfl, rfl⟩
      simp only [upsertRows, hany, if_true]
      rw [find_map_update (hasId art.Id) _ _ (fun r hr => by simpa [hasId, assign] using hr), hr]
      rfl
    · refine ⟨{ art with Ctime := e.now, Utime := e.now }, ?_, rfl, rfl, rfl, rfl⟩
      simp only [upsertRows, hany]
      apply find_append_new
      · intro r hr
        simp only [List.any_eq_true, not_exists, not_and] at hany
        simpa using hany r hr
      · simp [hasId]

/-- After an UpdateById that returns no error, the draft row selected by id and author
carries the article's title, content and status, and the live table is untouched. -/
theorem UpdateById_post (g : GORMArticleDAO) (art : Article) (e : Env)
    (hok : (g.UpdateById art e).2 = none) :
    (g.UpdateById art e).1.db.published = g.db.published ∧
    (g.UpdateById art e).1.staged = g.staged ∧
    ∃ d, (g.UpdateById art e).1.db.articles.find? (owned art.Id art.AuthorId) = some d ∧
      d.Id = art.Id ∧ d.Title = art.Title ∧ d.Content = art.Content ∧ d.Status = art.Status := by
  cases hf : e.fault with
  | some err => rw [UpdateById_fault g art e err hf] at hok; simp at hok
  | none =>
    rw [UpdateById_ok g art e hf] at hok ⊢
    by_cases h0 : (g.db.articles.filter (owned art.Id art.AuthorId)).length = 0
    · simp [h0] at hok
    · obtain ⟨r, hr, hpr⟩ := find_isSome_of_filter_ne_nil _ _ h0
      have hId : r.Id = art.Id := by
        simp only [owned, decide_eq_true_eq] at hpr
        exact hpr.1
      refine ⟨rfl, rfl, assign { art with Utime := e.now } r, ?_, hId, rfl, rfl, rfl⟩
      show (updateRows g.db.articles _).find? _ = _
      unfold updateRows
      rw [find_map_update (owned art.Id art.AuthorId) _ _
        (fun r hr => by simpa [owned, assign] using hr), hr]
      rfl

/-- After an Insert that returns no error, the new draft row is found under the returned
id and the article's author, and carries the article's title, content and status. -/
theorem Insert_post (g : GORMArticleDAO) (art : Article) (e : Env)
    (hok : (g.Insert art e).2.2 = none) :
    (g.Insert art e).1.db.published = g.db.published ∧
    (g.Insert art e).1.staged = g.staged ∧
    (g.Insert art e).2.1 = (if art.Id = 0 then e.gen else art.Id) ∧
    ∃ d, (g.Insert art e).1.db.articles.find? (owned (g.Insert art e).2.1 art.AuthorId) = some d ∧
      d.Id = (g.Insert art e).2.1 ∧ d.Title = art.Title ∧ d.Content = art.Content ∧
      d.Status = art.Status := by
  cases hf : e.fault with
  | some err => rw [Insert_fault g art e err hf] at hok; simp at hok
  | none =>
    rw [Insert_ok g art e hf] at hok ⊢
    by_cases hany : g.db.articles.any (hasId (if art.Id = 0 then e.gen else art.Id)) = true
    · simp [hany] at hok
    · simp only [hany]
      refine ⟨rfl, rfl, rfl, _, find_append_new _ _ _ ?_ ?_, rfl, rfl, rfl, rfl⟩
      · intro r hr
        simp only [List.any_eq_true, not_exists, not_and, Bool.not_eq_true] at hany
        have := hany r hr
        simp only [hasId, decide_eq_false_iff_not] at this
        simp only [owned, decide_eq_false_iff_not, not_and]
        intro h; exact absurd h this
      · simp [owned]

/-- C3: after a Sync that returns no error (update branch or insert branch, the database
generating non-zero identifiers), the draft row and the live row with the returned id are
both found, and their title, content and status are those of the article passed in. -/
theorem sync_success_rows_agree (g : GORMArticleDAO) (art : Article) (t : TxEnv) (e₁ e₂ : Env)
    (hgen : e₁.gen ≠ 0) (hok : (g.Sync art t e₁ e₂).2.2 = none) :
    ∃ d p : Article,
      (g.Sync art t e₁ e₂).1.FindById (g.Sync art t e₁ e₂).2.1 art.AuthorId none = (d, none) ∧
      (g.Sync art t e₁ e₂).1.FindPubById (g.Sync art t e₁ e₂).2.1 none = (p, none) ∧
      d.Id = (g.Sync art t e₁ e₂).2.1 ∧ p.Id = (g.Sync art t e₁ e₂).2.1 ∧
      d.Title = art.Title ∧ d.Content = art.Content ∧ d.Status = art.Status ∧
      p.Title = art.Title ∧ p.Content = art.Content ∧ p.Status = art.Status := by
  unfold GORMArticleDAO.Sync Transaction at hok ⊢
  cases hb : t.begin with
  | some err => simp [hb] at hok
  | none =>
    simp only [hb] at hok ⊢
    by_cases hpos : art.Id > 0
    · simp only [hpos, if_true] at hok ⊢
      have hU := UpdateById_post { g with staged := [] } art e₁
      rcases hu : GORMArticleDAO.UpdateById { g with staged := [] } art e₁ with ⟨u, uerr⟩
      rw [hu] at hU
      simp only [hu] at hok ⊢
      cases uerr with
      | some err => simp at hok
      | none =>
        obtain ⟨-, hst, d, hd, hdId, hdT, hdC, hdS⟩ := hU rfl
        have hV := Upsert_post u { art with Id := art.Id } e₂ (ne_of_gt hpos)
        rcases hv : GORMArticleDAO.Upsert u { art with Id := art.Id } e₂ with ⟨v, verr⟩
        rw [hv] at hV
        simp only [hv] at hok ⊢
        cases verr with
        | some err => simp at hok
        | none =>
          cases hc : t.commit with
          | some err => simp [hc] at hok
          | none =>
            obtain ⟨hart, hvst, p, hp, hpId, hpT, hpC, hpS⟩ := hV rfl
            simp only at hst hvst hd hart hp hpId hpT hpC hpS
            have hview : v.view = v.db := by
              unfold GORMArticleDAO.view
              rw [hvst, hst]; rfl
            refine ⟨d, p, ?_, ?_, hdId, hpId, hdT, hdC, hdS, hpT, hpC, hpS⟩
            · simp only [GORMArticleDAO.FindById, hview, hart, hd]
            · simp only [GORMArticleDAO.FindPubById, hview, hp]
    · simp only [hpos, if_false] at hok ⊢
      have hI := Insert_post { g with staged := [] } art e₁
      rcases hi : GORMArticleDAO.Insert { g with staged := [] } art e₁ with ⟨u, id, ierr⟩
      rw [hi] at hI
      simp only [hi] at hok ⊢
      cases ierr with
      | some err => simp at hok
      | none =>
        obtain ⟨-, hst, hid, d, hd, hdId, hdT, hdC, hdS⟩ := hI rfl
        simp only at hst hid hd hdId
        have hne : id ≠ 0 := by
          rw [hid]
          split
          · exact hgen
          · assumption
        have hV := Upsert_post u { art with Id := id } e₂ hne
        rcases hv : GORMArticleDAO.Upsert u { art with Id := id } e₂ with ⟨v, verr⟩
        rw [hv] at hV
        simp only [hv] at hok ⊢
        cases verr with
        | some err => simp at hok
        | none =>
          cases hc : t.commit with
          | some err => simp [hc] at hok
          | none =>
            obtain ⟨hart, hvst, p, hp, hpId, hpT, hpC, hpS⟩ := hV rfl
            simp only at hvst hart hp hpId hpT hpC hpS
            have hview : v.view = v.db := by
              unfold GORMArticleDAO.view
              rw [hvst, hst]; rfl
            refine ⟨d, p, ?_, ?_, hdId, hpId, hdT, hdC, hdS, hpT, hpC, hpS⟩
            · simp only [GORMArticleDAO.FindById, hview, hart, hd]
            · simp only [GORMArticleDAO.FindPubById, hview, hp]

/-- Witness of C1 on the rows of the test case "edit others article, fail": author 123
edits and withdraws article 4 of author 233. -/
theorem edit_others_article_fails_witness :
    ((GORMArticleDAO.init othersDB).UpdateById (request 4) (Env.ok 1000)).2 ≠ none ∧
    ((GORMArticleDAO.init othersDB).UpdateById (request 4) (Env.ok 1000)).1.db = othersDB ∧
    ((GORMArticleDAO.init othersDB).SyncStatus 4 123 3 1000 TxEnv.ok none none).2 ≠ none ∧
    ((GORMArticleDAO.init othersDB).SyncStatus 4 123 3 1000 TxEnv.ok none none).1.db = othersDB :=
  edit_others_article_fails (GORMArticleDAO.init othersDB) 4 233 123 (by decide)
    ⟨othersArticle, by simp [GORMArticleDAO.init, othersDB], rfl⟩
    (by simp [GORMArticleDAO.init, othersDB, othersArticle])
    (request 4) rfl rfl (Env.ok 1000) 3 1000 TxEnv.ok none none

/-- Witness of C2 on the rows of the test case "edit others article, fail" of publish. -/
theorem publish_others_article_fails_witness :
    ((GORMArticleDAO.init othersDB).Sync (request 4) TxEnv.ok (Env.ok 1000) (Env.ok 1001)).2.2 ≠ none ∧
    Stmt.upsertPublished ∉
      ((GORMArticleDAO.init othersDB).Sync (request 4) TxEnv.ok (Env.ok 1000) (Env.ok 1001)).1.issued.drop
        (GORMArticleDAO.init othersDB).issued.length ∧
    ((GORMArticleDAO.init othersDB).Sync (request 4) TxEnv.ok (Env.ok 1000) (Env.ok 1001)).1.db =
      othersDB :=
  publish_others_article_fails (GORMArticleDAO.init othersDB) 233 (request 4) (by decide)
    (by decide) ⟨othersArticle, by simp [GORMArticleDAO.init, othersDB], rfl⟩
    (by simp [GORMArticleDAO.init, othersDB, othersArticle])
    TxEnv.ok (Env.ok 1000) (Env.ok 1001)

/-- Witness of C3 on the rows of the test case "update article, both repo existed". -/
theorem sync_success_rows_agree_witness :
    ∃ d p : Article,
      ((GORMArticleDAO.init myDB).Sync (request 3) TxEnv.ok (Env.ok 1000) (Env.ok 1001)).1.FindById
        ((GORMArticleDAO.init myDB).Sync (request 3) TxEnv.ok (Env.ok 1000) (Env.ok 1001)).2.1
        (request 3).AuthorId none = (d, none) ∧
      ((GORMArticleDAO.init myDB).Sync (request 3) TxEnv.ok (Env.ok 1000) (Env.ok 1001)).1.FindPubById
        ((GORMArticleDAO.init myDB).Sync (request 3) TxEnv.ok (Env.ok 1000) (Env.ok 1001)).2.1
        none = (p, none) ∧
      d.Id = ((GORMArticleDAO.init myDB).Sync (request 3) TxEnv.ok (Env.ok 1000) (Env.ok 1001)).2.1 ∧
      p.Id = ((GORMArticleDAO.init myDB).Sync (request 3) TxEnv.ok (Env.ok 1000) (Env.ok 1001)).2.1 ∧
      d.Title = (request 3).Title ∧ d.Content = (request 3).Content ∧
      d.Status = (request 3).Status ∧
      p.Title = (request 3).Title ∧ p.Content = (request 3).Content ∧
      p.Status = (request 3).Status :=
  sync_success_rows_agree (GORMArticleDAO.init myDB) (request 3) TxEnv.ok (Env.ok 1000)
    (Env.ok 1001) (by decide) (by decide)

/-! ## Atomicity of Sync -/

/-- C4, evaluated: author 123 publishes article 3 and the driver reports an error for the
live upsert.  Sync returns the article id 3 with the error, and the draft row keeps the new
title, content and update time while the live row is the old one. -/
theorem sync_upsert_fault_keeps_draft_write :
    ((GORMArticleDAO.init myDB).Sync (request 3) TxEnv.ok (Env.ok 1000) (Env.down 1001)).2 =
      (3, some (Error.driver 2006)) ∧
    ((GORMArticleDAO.init myDB).Sync (request 3) TxEnv.ok (Env.ok 1000) (Env.down 1001)).1.db =
      { articles := [{ myArticle with Title := "New Title", Content := "new content", Utime := 1000 }],
        published := [myArticle] } ∧
    ((GORMArticleDAO.init myDB).Sync (request 3) TxEnv.ok (Env.ok 1000) (Env.down 1001)).1.db ≠ myDB := by
  decide

/-! ## Withdraw -/

/-- With no error from the driver and exactly one draft row selected by id and author,
SyncStatus commits both status updates. -/
theorem SyncStatus_ok (g : GORMArticleDAO) (id usrId : Int) (status : Nat) (now : Int)
    (h1 : (g.db.articles.filter (owned id usrId)).length = 1) :
    g.SyncStatus id usrId status now TxEnv.ok none none =
      ({ db := setPublishedStatus id status now (setArticleStatus id usrId status now g.db),
         staged := [],
         issued := g.issued ++ [Stmt.updateArticleStatus] ++ [Stmt.updatePublishedStatus] }, none) := by
  unfold GORMArticleDAO.SyncStatus Transaction
  simp [TxEnv.ok, GORMArticleDAO.view, h1]

/-- C10: when exactly one draft row matches (id, author) and the live table holds a row
with that id, SyncStatus at time now without driver errors returns no error; afterwards the
draft row and the live row are found with status s and update time now; every row keeps its
id, title, content, author and creation time; the matched rows get status s and update time
now (later than before when now is later), and every other row is unchanged. -/
theorem withdraw_updates_status_and_utime (g : GORMArticleDAO) (id usrId : Int) (s : Nat)
    (now : Int)
    (h1 : (g.db.articles.filter (owned id usrId)).length = 1)
    (hlive : ∃ r ∈ g.db.published, r.Id = id) :
    (g.SyncStatus id usrId s now TxEnv.ok none none).2 = none ∧
    (∃ d, (g.SyncStatus id usrId s now TxEnv.ok none none).1.FindById id usrId none = (d, none) ∧
      d.Status = s ∧ d.Utime = now) ∧
    (∃ p, (g.SyncStatus id usrId s now TxEnv.ok none none).1.FindPubById id none = (p, none) ∧
      p.Status = s ∧ p.Utime = now) ∧
    (∀ (i : Nat) (r : Article), g.db.articles[i]? = some r →
      ∃ r2 : Article, (g.SyncStatus id usrId s now TxEnv.ok none none).1.db.articles[i]? = some r2 ∧
        r2.Id = r.Id ∧ r2.Title = r.Title ∧ r2.Content = r.Content ∧
        r2.AuthorId = r.AuthorId ∧ r2.Ctime = r.Ctime ∧
        ((r.Id = id ∧ r.AuthorId = usrId) →
          r2.Status = s ∧ r2.Utime = now ∧ (r.Utime < now → r.Utime < r2.Utime)) ∧
        (¬ (r.Id = id ∧ r.AuthorId = usrId) → r2 = r)) ∧
    (∀ (i : Nat) (r : Article), g.db.published[i]? = some r →
      ∃ r2 : Article, (g.SyncStatus id usrId s now TxEnv.ok none none).1.db.published[i]? = some r2 ∧
        r2.Id = r.Id ∧ r2.Title = r.Title ∧ r2.Content = r.Content ∧
        r2.AuthorId = r.AuthorId ∧ r2.Ctime = r.Ctime ∧
        (r.Id = id → r2.Status = s ∧ r2.Utime = now ∧ (r.Utime < now → r.Utime < r2.Utime)) ∧
        (r.Id ≠ id → r2 = r)) ∧
    (g.SyncStatus id usrId s now TxEnv.ok none none).1.db.articles.length = g.db.articles.length ∧
    (g.SyncStatus id usrId s now TxEnv.ok none none).1.db.published.length =
      g.db.published.length := by
  rw [SyncStatus_ok g id usrId s now h1]
  refine ⟨rfl, ?_, ?_, ?_, ?_, ?_, ?_⟩
  · obtain ⟨r, hr, hpr⟩ := find_isSome_of_filter_ne_nil (owned id usrId) g.db.articles
      (by rw [h1]; decide)
    refine ⟨{ r with Status := s, Utime := now }, ?_, rfl, rfl⟩
    simp only [GORMArticleDAO.FindById, setPublishedStatus, setArticleStatus]
    rw [find_map_update (owned id usrId) _ _ (fun r hr => by simpa [owned] using hr), hr]
    rfl
  · obtain ⟨q, hq, hqid⟩ := hlive
    obtain ⟨r, hr, hpr⟩ := find_of_any (hasId id) g.db.published
      (List.any_eq_true.mpr ⟨q, hq, by simp [hasId, hqid]⟩)
    refine ⟨{ r with Status := s, Utime := now }, ?_, rfl, rfl⟩
    simp only [GORMArticleDAO.FindPubById, setPublishedStatus, setArticleStatus]
    rw [find_map_update (hasId id) _ _ (fun r hr => by simpa [hasId] using hr), hr]
    rfl
  · intro i r hr
    simp only [setPublishedStatus, setArticleStatus, List.getElem?_map, hr, Option.map_some']
    by_cases hm : r.Id = id ∧ r.AuthorId = usrId
    · refine ⟨_, rfl, ?_⟩
      simp [owned, hm]
    · refine ⟨_, rfl, ?_⟩
      simp [owned, hm]
  · intro i r hr
    simp only [setPublishedStatus, setArticleStatus, List.getElem?_map, hr, Option.map_some']
    by_cases hm : r.Id = id
    · refine ⟨_, rfl, ?_⟩
      simp [hasId, hm]
    · refine ⟨_, rfl, ?_⟩
      simp [hasId, hm]
  · simp [setPublishedStatus, setArticleStatus]
  · simp [setPublishedStatus, setArticleStatus]

/-- Witness of C10 on the rows of the test case "edit my article" of withdraw: author 123
withdraws article 3 at time 1000. -/
theorem withdraw_updates_status_and_utime_witness :
    ((GORMArticleDAO.init myDB).SyncStatus 3 123 3 1000 TxEnv.ok none none).2 = none ∧
    ((GORMArticleDAO.init myDB).SyncStatus 3 123 3 1000 TxEnv.ok none none).1.db =
      { articles := [{ myArticle with Status := 3, Utime := 1000 }],
        published := [{ myArticle with Status := 3, Utime := 1000 }] } :=
  ⟨(withdraw_updates_status_and_utime (GORMArticleDAO.init myDB) 3 123 3 1000 (by decide)
      ⟨myArticle, by simp [GORMArticleDAO.init, myDB], rfl⟩).1, by decide⟩

/-! ## Cache errors on the write path -/

/-- C5, evaluated: the store operations succeed and the cache backend reports error 1.
Create returns the new id 1 together with the error of DeleteFirstPage; Sync and SyncStatus
return the error of Delete; Update returns nil. -/
theorem cache_error_reaches_caller :
    ((gormRepository { articles := [], published := [] } brokenCache).Create newArticle).2 =
      (1, some (Error.cacheBackend 1)) ∧
    ((gormRepository { articles := [], published := [] } brokenCache).Sync newArticle).2 =
      (1, some (Error.cacheBackend 1)) ∧
    ((gormRepository myDB brokenCache).SyncStatus 3 123 3).2 = some (Error.cacheBackend 1) ∧
    ((gormRepository myDB brokenCache).Update (toDomain (request 3))).2 = none := by
  decide

/-! ## The first-page cache -/

/-- C6, evaluated: six articles of author 123 are cached as the first page.  List with
offset 2 and limit 3 returns the single article at position 2, where the page asked for is
the three articles at positions 2, 3 and 4; List with offset 3 and limit 2 panics. -/
theorem list_cache_hit_slices_to_limit :
    ((fixedRepository [] sixCached).List 123 2 3).out = some ([sample 3], none) ∧
    [sample 3] ≠ ([sample 1, sample 2, sample 3, sample 4, sample 5, sample 6].drop 2).take 3 ∧
    ((fixedRepository [] sixCached).List 123 3 2).out = none := by
  decide

/-- C8, evaluated: author 123 has one article and the cache is empty.  List with offset 0
and limit 100 returns the article; its goroutine panics on the slice expression before
SetFirstPage is called, the first page stays absent, and the same List call made again
reads the draft store again. -/
theorem list_first_page_not_populated :
    ((fixedRepository [sampleRow 1] cache.Mem.empty).List 123 0 100).out =
      some ([sample 1], none) ∧
    ((fixedRepository [sampleRow 1] cache.Mem.empty).List 123 0 100).wait.2 = true ∧
    ((fixedRepository [sampleRow 1] cache.Mem.empty).List 123 0 100).wait.1.calls =
      [Call.GetFirstPage 123, Call.GetByAuthor 123 0 100] ∧
    ((fixedRepository [sampleRow 1] cache.Mem.empty).List 123 0 100).wait.1.mem.firstPage = [] ∧
    ((((fixedRepository [sampleRow 1] cache.Mem.empty).List 123 0 100).wait.1.List 123 0 100).st.calls.drop
      2) = [Call.GetFirstPage 123, Call.GetByAuthor 123 0 100] := by
  decide

/-- C7, counterexample: the draft store answers with 101 rows and List is called with
offset 0 and limit 101, so that offset+limit is 101; once the goroutine has run, the calls
made include SetFirstPage for the author. -/
theorem list_limit_101_writes_first_page :
    (100 : Int) < 0 + 101 ∧
    ∃ arts, Call.SetFirstPage 123 arts ∈
      ((fixedRepository (List.replicate 101 (sampleRow 1)) cache.Mem.empty).List 123 0 101).wait.1.calls := by
  refine ⟨by decide, List.replicate 100 (sample 1), ?_⟩
  decide

section

variable {σ κ : Type}

theorem addInt_eq (x y : Int) (hlo : -(2 ^ 63) ≤ x + y) (hhi : x + y < 2 ^ 63) :
    addInt x y = x + y := by
  unfold addInt
  rw [Int.emod_eq_of_lt (by omega) (by omega)]
  omega

theorem calls_logError (a : articleRepository σ κ) (msg : String) :
    (a.logError msg).calls = a.calls := rfl

theorem calls_cacheSet (a : articleRepository σ κ) (art : domain.Article) :
    (a.cacheSet art).1.calls = a.calls ++ [Call.Set art] := rfl

theorem calls_preCache (a : articleRepository σ κ) (arts : List domain.Article) :
    (a.preCache arts).calls = a.calls ∨
      ∃ art, (a.preCache arts).calls = a.calls ++ [Call.Set art] := by
  unfold articleRepository.preCache
  cases arts with
  | nil => exact Or.inl rfl
  | cons first rest =>
    simp only
    split
    · right
      refine ⟨first, ?_⟩
      split <;> rfl
    · exact Or.inl rfl

/-- Calls made by the slow path of List and its goroutine: GetByAuthor, then at most one
SetFirstPage (only when offset is 0) and at most one Set. -/
theorem calls_listSlow (a : articleRepository σ κ) (id offset limit : Int) :
    ∃ l, (a.listSlow id offset limit).wait.1.calls =
        a.calls ++ Call.GetByAuthor id offset limit :: l ∧
      ∀ c ∈ l, (∃ art, c = Call.Set art) ∨ (offset = 0 ∧ ∃ arts, c = Call.SetFirstPage id arts) := by
  unfold articleRepository.listSlow articleRepository.daoGetByAuthor
  rcases hq : a.artDao.GetByAuthor a.store id offset limit with _ | ⟨s, res, err⟩
  · exact ⟨[], by simp [Ret.wait], by simp⟩
  cases err with
  | some e => exact ⟨[], by simp [Ret.wait], by simp⟩
  | none =>
    simp only [Ret.wait, articleRepository.refreshFirstPage]
    split
    · rename_i hc
      split
      · exact ⟨[], by simp, by simp⟩
      · rename_i page hpage
        simp only
        rcases calls_preCache
          (if (articleRepository.cacheSetFirstPage
                { a with store := s, calls := a.calls ++ [Call.GetByAuthor id offset limit] } id page).2 ≠ none
            then (articleRepository.cacheSetFirstPage
                { a with store := s, calls := a.calls ++ [Call.GetByAuthor id offset limit] } id page).1.logError
                  "refresh first page article failed"
            else (articleRepository.cacheSetFirstPage
                { a with store := s, calls := a.calls ++ [Call.GetByAuthor id offset limit] } id page).1)
          (res.map toDomain) with h | ⟨art, h⟩
        · refine ⟨[Call.SetFirstPage id page], ?_, ?_⟩
          · rw [h]; split <;> simp [articleRepository.cacheSetFirstPage, articleRepository.logError]
          · intro c hc2
            simp only [List.mem_singleton] at hc2
            exact Or.inr ⟨hc.1, page, hc2⟩
        · refine ⟨[Call.SetFirstPage id page, Call.Set art], ?_, ?_⟩
          · rw [h]; split <;> simp [articleRepository.cacheSetFirstPage, articleRepository.logError]
          · intro c hc2
            simp only [List.mem_cons, List.mem_singleton, List.not_mem_nil, or_false] at hc2
            rcases hc2 with hc2 | hc2
            · exact Or.inr ⟨hc.1, page, hc2⟩
            · exact Or.inl ⟨art, hc2⟩
    · rcases calls_preCache
          { a with store := s, calls := a.calls ++ [Call.GetByAuthor id offset limit] }
          (res.map toDomain) with h | ⟨art, h⟩
      · exact ⟨[], by rw [h], by simp⟩
      · refine ⟨[Call.Set art], by rw [h]; simp, ?_⟩
        intro c hc2
        simp only [List.mem_singleton] at hc2
        exact Or.inl ⟨art, hc2⟩

end

section

variable {σ κ : Type}

theorem slice_first_hundred {α : Type} (data : List α) (h : 100 ≤ data.length) :
    repository.slice data 0 100 = some (data.take 100) := by
  unfold repository.slice
  have h2 : ((100 : Int) ≤ (data.length : Int)) := by exact_mod_cast h
  simp [h2]

/-- On the slow path with offset 0, limit at least 100 and at least 100 rows read without
error, the goroutine calls SetFirstPage with the first 100 of them. -/
theorem listSlow_refreshes (a : articleRepository σ κ) (id limit : Int) (hl : 100 ≤ limit)
    (s : σ) (rows : List article.Article)
    (hq : a.artDao.GetByAuthor a.store id 0 limit = some (s, rows, none)) (hn : 100 ≤ rows.length) :
    ∃ l, (a.listSlow id 0 limit).wait.1.calls =
      a.calls ++ Call.GetByAuthor id 0 limit :: Call.SetFirstPage id ((rows.map toDomain).take 100) :: l := by
  unfold articleRepository.listSlow articleRepository.daoGetByAuthor
  simp only [hq, Ret.wait, articleRepository.refreshFirstPage, hl, ge_iff_le, and_self, if_true,
    slice_first_hundred (rows.map toDomain) (by simpa using hn)]
  rcases calls_preCache
      (if (articleRepository.cacheSetFirstPage
            { a with store := s, calls := a.calls ++ [Call.GetByAuthor id 0 limit] } id
            ((rows.map toDomain).take 100)).2 ≠ none
        then (articleRepository.cacheSetFirstPage
            { a with store := s, calls := a.calls ++ [Call.GetByAuthor id 0 limit] } id
            ((rows.map toDomain).take 100)).1.logError "refresh first page article failed"
        else (articleRepository.cacheSetFirstPage
            { a with store := s, calls := a.calls ++ [Call.GetByAuthor id 0 limit] } id
            ((rows.map toDomain).take 100)).1)
      (rows.map toDomain) with h | ⟨art, h⟩
  · refine ⟨[], ?_⟩
    rw [h]; split <;> simp [articleRepository.cacheSetFirstPage, articleRepository.logError]
  · refine ⟨[Call.Set art], ?_⟩
    rw [h]; split <;> simp [articleRepository.cacheSetFirstPage, articleRepository.logError]

/-- C7, amended: for a List call with offset+limit > 100 (the sum within the int range),
GetFirstPage is not called, and SetFirstPage is not called when offset is not 0; when
offset is 0 and the DAO returns at least 100 rows without error, the goroutine calls
SetFirstPage with the first 100 rows. -/
theorem list_large_range_cache_calls (a : articleRepository σ κ) (id offset limit : Int)
    (hgt : 100 < offset + limit) (hmax : offset + limit < 2 ^ 63) :
    (∀ uid, Call.GetFirstPage uid ∉ (a.List id offset limit).wait.1.calls.drop a.calls.length) ∧
    (offset ≠ 0 → ∀ uid arts,
      Call.SetFirstPage uid arts ∉ (a.List id offset limit).wait.1.calls.drop a.calls.length) ∧
    (offset = 0 → ∀ s rows, a.artDao.GetByAuthor a.store id offset limit = some (s, rows, none) →
      100 ≤ rows.length →
      Call.SetFirstPage id ((rows.map toDomain).take 100) ∈
        (a.List id offset limit).wait.1.calls.drop a.calls.length) := by
  have hadd : addInt offset limit = offset + limit := addInt_eq offset limit (by omega) hmax
  have hList : a.List id offset limit = a.listSlow id offset limit := by
    unfold articleRepository.List
    rw [hadd, if_neg (by omega)]
  rw [hList]
  obtain ⟨l, hl, hmem⟩ := calls_listSlow a id offset limit
  have hdrop : (a.listSlow id offset limit).wait.1.calls.drop a.calls.length =
      Call.GetByAuthor id offset limit :: l := by
    rw [hl]; simp
  refine ⟨?_, ?_, ?_⟩
  · intro uid hin
    rw [hdrop] at hin
    rcases List.mem_cons.mp hin with h | h
    · cases h
    · rcases hmem _ h with ⟨art, h2⟩ | ⟨_, arts, h2⟩ <;> cases h2
  · intro h0 uid arts hin
    rw [hdrop] at hin
    rcases List.mem_cons.mp hin with h | h
    · cases h
    · rcases hmem _ h with ⟨art, h2⟩ | ⟨h3, arts, h2⟩
      · cases h2
      · exact h0 h3
  · intro h0 s rows hq hn
    subst h0
    obtain ⟨l2, hl2⟩ := listSlow_refreshes a id limit (by omega) s rows hq hn
    rw [hl2]
    simp

end

/-- Witness of the amended C7: List with offset 50 and limit 100 on an empty cache. -/
theorem list_large_range_cache_calls_witness :
    (∀ uid, Call.GetFirstPage uid ∉
      ((fixedRepository [sampleRow 1] cache.Mem.empty).List 123 50 100).wait.1.calls.drop
        (fixedRepository [sampleRow 1] cache.Mem.empty).calls.length) ∧
    (∀ uid arts, Call.SetFirstPage uid arts ∉
      ((fixedRepository [sampleRow 1] cache.Mem.empty).List 123 50 100).wait.1.calls.drop
        (fixedRepository [sampleRow 1] cache.Mem.empty).calls.length) :=
  ⟨(list_large_range_cache_calls (fixedRepository [sampleRow 1] cache.Mem.empty) 123 50 100
      (by decide) (by decide)).1,
   (list_large_range_cache_calls (fixedRepository [sampleRow 1] cache.Mem.empty) 123 50 100
      (by decide) (by decide)).2.1 (by decide)⟩

/-! ## Size-gated caching -/

section

variable {σ : Type}

theorem Small_filter (l : List domain.Article) (p : domain.Article → Bool)
    (h : ∀ art ∈ l, art.Content.utf8ByteSize < 1024 * 1024) :
    ∀ art ∈ l.filter p, art.Content.utf8ByteSize < 1024 * 1024 :=
  fun art hart => h art (List.mem_filter.mp hart).1

theorem model_GetFirstPage_articles (m : cache.Mem) (uid : Int) :
    (cache.model.GetFirstPage m uid).1.articles = m.articles := by
  simp only [cache.model]
  split
  · rfl
  · split <;> rfl

theorem model_SetFirstPage_articles (m : cache.Mem) (uid : Int) (arts : List domain.Article) :
    (cache.model.SetFirstPage m uid arts).1.articles = m.articles := by
  simp only [cache.model]
  split <;> rfl

theorem model_DeleteFirstPage_articles (m : cache.Mem) (uid : Int) :
    (cache.model.DeleteFirstPage m uid).1.articles = m.articles := by
  simp only [cache.model]
  split
  · rfl
  · split <;> rfl

theorem model_Get_articles (m : cache.Mem) (id uid : Int) :
    (cache.model.Get m id uid).1.articles = m.articles := by
  simp only [cache.model]
  split
  · rfl
  · split <;> rfl

/-- When the lookup reports an error, the article it returns is the zero value. -/
theorem model_Get_miss (m : cache.Mem) (id uid : Int)
    (h : (cache.model.Get m id uid).2.2 ≠ none) :
    (cache.model.Get m id uid).2.1 = domain.Article.zero := by
  simp only [cache.model] at h ⊢
  cases hf : m.faults.headD none with
  | some err => rfl
  | none =>
    cases hfind : m.articles.find? (cache.keyed id uid) with
    | none => rfl
    | some art =>
      rw [hf] at h
      simp only [hfind] at h
      exact absurd rfl h

theorem model_Delete_small (m : cache.Mem) (id uid : Int)
    (h : ∀ art ∈ m.articles, art.Content.utf8ByteSize < 1024 * 1024) :
    ∀ art ∈ (cache.model.Delete m id uid).1.articles, art.Content.utf8ByteSize < 1024 * 1024 := by
  simp only [cache.model]
  split
  · exact h
  · split
    · exact Small_filter _ _ h
    · exact h

theorem model_Set_small (m : cache.Mem) (x : domain.Article)
    (hx : x.Content.utf8ByteSize < 1024 * 1024)
    (h : ∀ art ∈ m.articles, art.Content.utf8ByteSize < 1024 * 1024) :
    ∀ art ∈ (cache.model.Set m x).1.articles, art.Content.utf8ByteSize < 1024 * 1024 := by
  simp only [cache.model]
  split
  · exact h
  · split
    · exact h
    · intro art hart
      rcases List.mem_cons.mp hart with h1 | h1
      · rw [h1]; exact hx
      · exact Small_filter _ _ h art h1

end

section

variable {σ : Type}

theorem sizeGated_logError (a : articleRepository σ cache.Mem) (msg : String)
    (h : a.sizeGated) : (a.logError msg).sizeGated := h

theorem sizeGated_logCacheError (a : articleRepository σ cache.Mem) (err : Option Error)
    (msg : String) (h : a.sizeGated) : (a.logCacheError err msg).sizeGated := by
  unfold articleRepository.logCacheError
  split
  · exact sizeGated_logError a msg h
  · exact h

theorem sizeGated_daoInsert (a : articleRepository σ cache.Mem) (art : article.Article)
    (h : a.sizeGated) : (a.daoInsert art).1.sizeGated := h

theorem sizeGated_daoUpdateById (a : articleRepository σ cache.Mem) (art : article.Article)
    (h : a.sizeGated) : (a.daoUpdateById art).1.sizeGated := h

theorem sizeGated_daoSync (a : articleRepository σ cache.Mem) (art : article.Article)
    (h : a.sizeGated) : (a.daoSync art).1.sizeGated := h

theorem sizeGated_daoSyncStatus (a : articleRepository σ cache.Mem) (id usrId : Int)
    (status : Nat) (h : a.sizeGated) : (a.daoSyncStatus id usrId status).1.sizeGated := h

theorem sizeGated_daoGetByAuthor (a : articleRepository σ cache.Mem) (uid offset limit : Int)
    (h : a.sizeGated) : (a.daoGetByAuthor uid offset limit).1.sizeGated := by
  unfold articleRepository.daoGetByAuthor
  split <;> exact h

theorem sizeGated_daoFindById (a : articleRepository σ cache.Mem) (id uid : Int)
    (h : a.sizeGated) : (a.daoFindById id uid).1.sizeGated := h

theorem sizeGated_cacheDeleteFirstPage (a : articleRepository σ cache.Mem) (uid : Int)
    (h : a.sizeGated) : (a.cacheDeleteFirstPage uid).1.sizeGated := by
  refine ⟨h.1, ?_⟩
  show smallOnly (a.cache.DeleteFirstPage a.mem uid).1
  rw [h.1]
  unfold smallOnly
  rw [model_DeleteFirstPage_articles]
  exact h.2

theorem sizeGated_cacheDelete (a : articleRepository σ cache.Mem) (id uid : Int)
    (h : a.sizeGated) : (a.cacheDelete id uid).1.sizeGated := by
  refine ⟨h.1, ?_⟩
  show smallOnly (a.cache.Delete a.mem id uid).1
  rw [h.1]
  exact model_Delete_small a.mem id uid h.2

theorem sizeGated_cacheGetFirstPage (a : articleRepository σ cache.Mem) (uid : Int)
    (h : a.sizeGated) : (a.cacheGetFirstPage uid).1.sizeGated := by
  refine ⟨h.1, ?_⟩
  show smallOnly (a.cache.GetFirstPage a.mem uid).1
  rw [h.1]
  unfold smallOnly
  rw [model_GetFirstPage_articles]
  exact h.2

theorem sizeGated_cacheSetFirstPage (a : articleRepository σ cache.Mem) (uid : Int)
    (arts : List domain.Article) (h : a.sizeGated) : (a.cacheSetFirstPage uid arts).1.sizeGated := by
  refine ⟨h.1, ?_⟩
  show smallOnly (a.cache.SetFirstPage a.mem uid arts).1
  rw [h.1]
  unfold smallOnly
  rw [model_SetFirstPage_articles]
  exact h.2

theorem sizeGated_cacheGet (a : articleRepository σ cache.Mem) (id uid : Int)
    (h : a.sizeGated) : (a.cacheGet id uid).1.sizeGated := by
  refine ⟨h.1, ?_⟩
  show smallOnly (a.cache.Get a.mem id uid).1
  rw [h.1]
  unfold smallOnly
  rw [model_Get_articles]
  exact h.2

theorem sizeGated_cacheSet (a : articleRepository σ cache.Mem) (art : domain.Article)
    (hart : art.Content.utf8ByteSize < 1024 * 1024)
    (h : a.sizeGated) : (a.cacheSet art).1.sizeGated := by
  refine ⟨h.1, ?_⟩
  show smallOnly (a.cache.Set a.mem art).1
  rw [h.1]
  exact model_Set_small a.mem art hart h.2

theorem sizeGated_preCache (a : articleRepository σ cache.Mem) (arts : List domain.Article)
    (h : a.sizeGated) : (a.preCache arts).sizeGated := by
  unfold articleRepository.preCache
  cases arts with
  | nil => exact h
  | cons first rest =>
    simp only
    split
    · rename_i hsmall
      have h2 := sizeGated_cacheSet a first hsmall h
      split
      · exact sizeGated_logError _ _ h2
      · exact h2
    · exact h

theorem sizeGated_Create (a : articleRepository σ cache.Mem) (art : domain.Article)
    (h : a.sizeGated) : (a.Create art).1.sizeGated := by
  unfold articleRepository.Create
  have h1 := sizeGated_daoInsert a (toEntity art) h
  rcases hq : a.daoInsert (toEntity art) with ⟨a1, id, err⟩
  rw [hq] at h1
  cases err with
  | some e => exact h1
  | none => exact sizeGated_logCacheError _ _ _ (sizeGated_cacheDeleteFirstPage _ _ h1)

theorem sizeGated_Update (a : articleRepository σ cache.Mem) (art : domain.Article)
    (h : a.sizeGated) : (a.Update art).1.sizeGated := by
  unfold articleRepository.Update
  have h1 := sizeGated_daoUpdateById a (toEntity art) h
  rcases hq : a.daoUpdateById (toEntity art) with ⟨a1, err⟩
  rw [hq] at h1
  cases err with
  | some e => exact h1
  | none =>
    exact sizeGated_logCacheError _ _ _ (sizeGated_cacheDelete _ _ _
      (sizeGated_logCacheError _ _ _ (sizeGated_cacheDeleteFirstPage _ _ h1)))

theorem sizeGated_Sync (a : articleRepository σ cache.Mem) (art : domain.Article)
    (h : a.sizeGated) : (a.Sync art).1.sizeGated := by
  unfold articleRepository.Sync
  have h1 := sizeGated_daoSync a (toEntity art) h
  rcases hq : a.daoSync (toEntity art) with ⟨a1, id, err⟩
  rw [hq] at h1
  cases err with
  | some e => exact h1
  | none =>
    exact sizeGated_logCacheError _ _ _ (sizeGated_cacheDelete _ _ _
      (sizeGated_logCacheError _ _ _ (sizeGated_cacheDeleteFirstPage _ _ h1)))

theorem sizeGated_SyncStatus (a : articleRepository σ cache.Mem) (id usrId : Int) (status : Nat)
    (h : a.sizeGated) : (a.SyncStatus id usrId status).1.sizeGated := by
  unfold articleRepository.SyncStatus
  have h1 := sizeGated_daoSyncStatus a id usrId status h
  rcases hq : a.daoSyncStatus id usrId status with ⟨a1, err⟩
  rw [hq] at h1
  cases err with
  | some e => exact h1
  | none =>
    exact sizeGated_logCacheError _ _ _ (sizeGated_cacheDelete _ _ _
      (sizeGated_logCacheError _ _ _ (sizeGated_cacheDeleteFirstPage _ _ h1)))

theorem sizeGated_listSlow (a : articleRepository σ cache.Mem) (id offset limit : Int)
    (h : a.sizeGated) :
    (a.listSlow id offset limit).st.sizeGated ∧ (a.listSlow id offset limit).wait.1.sizeGated := by
  unfold articleRepository.listSlow
  have h1 := sizeGated_daoGetByAuthor a id offset limit h
  rcases hq : a.daoGetByAuthor id offset limit with ⟨a1, _ | ⟨res, err⟩⟩
  · rw [hq] at h1
    exact ⟨h1, h1⟩
  rw [hq] at h1
  cases err with
  | some e => exact ⟨h1, h1⟩
  | none =>
    refine ⟨h1, ?_⟩
    simp only [Ret.wait, articleRepository.refreshFirstPage]
    split
    · split
      · exact h1
      · rename_i page _
        have h2 := sizeGated_cacheSetFirstPage a1 id page h1
        apply sizeGated_preCache
        split
        · exact sizeGated_logError _ _ h2
        · exact h2
    · exact sizeGated_preCache _ _ h1

theorem sizeGated_List (a : articleRepository σ cache.Mem) (id offset limit : Int)
    (h : a.sizeGated) :
    (a.List id offset limit).st.sizeGated ∧ (a.List id offset limit).wait.1.sizeGated := by
  unfold articleRepository.List
  split
  · have h1 := sizeGated_cacheGetFirstPage a id h
    rcases hq : a.cacheGetFirstPage id with ⟨a1, arts, err⟩
    rw [hq] at h1
    cases err with
    | none => exact ⟨h1, sizeGated_preCache _ _ h1⟩
    | some e =>
      simp only
      apply sizeGated_listSlow
      split
      · exact sizeGated_logError _ _ h1
      · exact h1
  · exact sizeGated_listSlow a id offset limit h

theorem sizeGated_GetById (a : articleRepository σ cache.Mem) (id uid : Int)
    (h : a.sizeGated) :
    (a.GetById id uid).st.sizeGated ∧ (a.GetById id uid).wait.1.sizeGated := by
  unfold articleRepository.GetById
  have h1 := sizeGated_cacheGet a id uid h
  have hz : (a.cacheGet id uid).2.2 ≠ none → (a.cacheGet id uid).2.1 = domain.Article.zero := by
    intro hne
    have := model_Get_miss a.mem id uid (by rw [← h.1]; exact hne)
    rw [← h.1] at this
    exact this
  rcases hq : a.cacheGet id uid with ⟨a1, art, err⟩
  rw [hq] at h1 hz
  cases err with
  | none => exact ⟨h1, h1⟩
  | some e =>
    have hart : art = domain.Article.zero := hz (by simp)
    have h2 := sizeGated_daoFindById a1 id uid h1
    simp only
    rcases hq2 : a1.daoFindById id uid with ⟨a2, dArt, err2⟩
    rw [hq2] at h2
    cases err2 with
    | some e2 => exact ⟨h2, h2⟩
    | none =>
      refine ⟨h2, ?_⟩
      simp only [Ret.wait]
      have h3 := sizeGated_cacheSet a2 art (by rw [hart]; decide) h2
      split
      · exact sizeGated_logError _ _ h3
      · exact h3

/-- C9: over the modelled cache, when the single-article cache holds no article with a
content of 1 MiB or more, it still holds none after Create, Update, Sync, SyncStatus, List
(fast or slow path) and GetById, both when the method returns and once its goroutine has
run. -/
theorem single_article_cache_stays_size_gated (a : articleRepository σ cache.Mem)
    (hc : a.cache = cache.model)
    (h : ∀ art ∈ a.mem.articles, art.Content.utf8ByteSize < 1024 * 1024)
    (art : domain.Article) (id uid offset limit : Int) (status : Nat) :
    smallOnly (a.Create art).1.mem ∧ smallOnly (a.Update art).1.mem ∧
    smallOnly (a.Sync art).1.mem ∧ smallOnly (a.SyncStatus id uid status).1.mem ∧
    smallOnly (a.List uid offset limit).st.mem ∧ smallOnly (a.List uid offset limit).wait.1.mem ∧
    smallOnly (a.GetById id uid).st.mem ∧ smallOnly (a.GetById id uid).wait.1.mem :=
  have hg : a.sizeGated := ⟨hc, h⟩
  ⟨(sizeGated_Create a art hg).2, (sizeGated_Update a art hg).2, (sizeGated_Sync a art hg).2,
   (sizeGated_SyncStatus a id uid status hg).2,
   (sizeGated_List a uid offset limit hg).1.2, (sizeGated_List a uid offset limit hg).2.2,
   (sizeGated_GetById a id uid hg).1.2, (sizeGated_GetById a id uid hg).2.2⟩

end

/-- Witness of C9: a repository whose single-article cache holds one small article. -/
theorem single_article_cache_stays_size_gated_witness :
    smallOnly ((fixedRepository [sampleRow 1] oneCached).Create newArticle).1.mem ∧
    smallOnly ((fixedRepository [sampleRow 1] oneCached).Update newArticle).1.mem ∧
    smallOnly ((fixedRepository [sampleRow 1] oneCached).Sync newArticle).1.mem ∧
    smallOnly ((fixedRepository [sampleRow 1] oneCached).SyncStatus 1 123 3).1.mem ∧
    smallOnly ((fixedRepository [sampleRow 1] oneCached).List 123 0 100).st.mem ∧
    smallOnly ((fixedRepository [sampleRow 1] oneCached).List 123 0 100).wait.1.mem ∧
    smallOnly ((fixedRepository [sampleRow 1] oneCached).GetById 1 123).st.mem ∧
    smallOnly ((fixedRepository [sampleRow 1] oneCached).GetById 1 123).wait.1.mem :=
  single_article_cache_stays_size_gated (fixedRepository [sampleRow 1] oneCached) rfl
    (by decide) newArticle 1 123 0 100 3

/-! ## Errors of SyncStatus and UpdateById -/

/-- The error of SyncStatus when the number of matched draft rows is not one. -/
theorem SyncStatus_err_of_count (g : GORMArticleDAO) (id usrId : Int) (status : Nat) (now : Int)
    (t : TxEnv) (f₁ f₂ : Option Error)
    (hn : (g.db.articles.filter (owned id usrId)).length ≠ 1) :
    g.SyncStatus id usrId status now t f₁ f₂ =
      match t.begin with
      | some err => (g, some err)
      | none =>
        match f₁ with
        | some err =>
          ({ g with staged := [], issued := g.issued ++ [Stmt.updateArticleStatus] }, some err)
        | none =>
          ({ g with staged := [], issued := g.issued ++ [Stmt.updateArticleStatus] },
            some (Error.attack id usrId)) := by
  unfold GORMArticleDAO.SyncStatus Transaction
  cases t.begin <;> cases f₁ <;> simp [GORMArticleDAO.view, hn]

/-- C11, amended: whenever the number of draft rows matched by (id, author_id) is not
exactly one, SyncStatus returns an error and leaves both tables as they were; unless the
driver reports an error first, that error is the same value, built from id and author id
only, whether zero rows or more than one row matched. -/
theorem syncStatus_fails_unless_one_row (g : GORMArticleDAO) (id usrId : Int) (status : Nat)
    (now : Int) (t : TxEnv) (f₁ f₂ : Option Error)
    (hn : (g.db.articles.filter (owned id usrId)).length ≠ 1) :
    (g.SyncStatus id usrId status now t f₁ f₂).2 ≠ none ∧
    (g.SyncStatus id usrId status now t f₁ f₂).1.db = g.db ∧
    (t.begin = none → f₁ = none →
      (g.SyncStatus id usrId status now t f₁ f₂).2 = some (Error.attack id usrId)) := by
  rw [SyncStatus_err_of_count g id usrId status now t f₁ f₂ hn]
  cases t.begin <;> cases f₁ <;> simp

/-- Witness of the amended C11: two draft rows carry id 3 and author 123. -/
theorem syncStatus_fails_unless_one_row_witness :
    ((GORMArticleDAO.init twinDB).SyncStatus 3 123 3 1000 TxEnv.ok none none).2 ≠ none ∧
    ((GORMArticleDAO.init twinDB).SyncStatus 3 123 3 1000 TxEnv.ok none none).1.db = twinDB ∧
    (TxEnv.ok.begin = none → (none : Option Error) = none →
      ((GORMArticleDAO.init twinDB).SyncStatus 3 123 3 1000 TxEnv.ok none none).2 =
        some (Error.attack 3 123)) :=
  syncStatus_fails_unless_one_row (GORMArticleDAO.init twinDB) 3 123 3 1000 TxEnv.ok none none
    (by decide)

/-- C11, counterexample: SyncStatus for id 3 and author 123 on a draft table where two
rows match and on a draft table where no row matches returns the same error value. -/
theorem syncStatus_many_rows_error_same_as_zero_rows :
    ((GORMArticleDAO.init twinDB).db.articles.filter (owned 3 123)).length = 2 ∧
    ((GORMArticleDAO.init { articles := [], published := [] }).db.articles.filter
      (owned 3 123)).length = 0 ∧
    ((GORMArticleDAO.init twinDB).SyncStatus 3 123 3 1000 TxEnv.ok none none).2 =
      ((GORMArticleDAO.init { articles := [], published := [] }).SyncStatus 3 123 3 1000
        TxEnv.ok none none).2 := by
  decide

/-! ## Not found and not owner -/

theorem UpdateById_err_of_no_row (g : GORMArticleDAO) (art : Article) (e : Env)
    (h : ∀ r ∈ g.db.articles, owned art.Id art.AuthorId r = false) :
    (g.UpdateById art e).2 =
      match e.fault with
      | some err => some err
      | none => some Error.updateFailed := by
  have hnil := filter_eq_nil_of_false (owned art.Id art.AuthorId) g.db.articles h
  unfold GORMArticleDAO.UpdateById
  cases e.fault <;> simp [hnil]

/-- C12: for an id and a caller, in a state with no draft row of that id and in a state
where the draft rows of that id belong to other authors, UpdateById and SyncStatus run in
the same environment return the same error. -/
theorem not_found_same_as_not_owner (g₁ g₂ : GORMArticleDAO) (art : Article)
    (h1 : ∀ r ∈ g₁.db.articles, r.Id ≠ art.Id)
    (hex : ∃ r ∈ g₂.db.articles, r.Id = art.Id)
    (h2 : ∀ r ∈ g₂.db.articles, r.Id = art.Id → r.AuthorId ≠ art.AuthorId)
    (e : Env) (status : Nat) (now : Int) (t : TxEnv) (f₁ f₂ : Option Error) :
    (g₁.UpdateById art e).2 = (g₂.UpdateById art e).2 ∧
    (g₁.UpdateById art e).2 ≠ none ∧
    (g₁.SyncStatus art.Id art.AuthorId status now t f₁ f₂).2 =
      (g₂.SyncStatus art.Id art.AuthorId status now t f₁ f₂).2 ∧
    (g₁.SyncStatus art.Id art.AuthorId status now t f₁ f₂).2 ≠ none := by
  have _ := hex
  have hf1 : ∀ r ∈ g₁.db.articles, owned art.Id art.AuthorId r = false := by
    intro r hr
    simp only [owned, decide_eq_false_iff_not, not_and]
    intro hid
    exact absurd hid (h1 r hr)
  have hf2 : ∀ r ∈ g₂.db.articles, owned art.Id art.AuthorId r = false := by
    intro r hr
    simp only [owned, decide_eq_false_iff_not, not_and]
    exact h2 r hr
  have hn1 : (g₁.db.articles.filter (owned art.Id art.AuthorId)).length ≠ 1 := by
    rw [filter_eq_nil_of_false _ _ hf1]; decide
  have hn2 : (g₂.db.articles.filter (owned art.Id art.AuthorId)).length ≠ 1 := by
    rw [filter_eq_nil_of_false _ _ hf2]; decide
  refine ⟨?_, ?_, ?_, ?_⟩
  · rw [UpdateById_err_of_no_row g₁ art e hf1, UpdateById_err_of_no_row g₂ art e hf2]
  · rw [UpdateById_err_of_no_row g₁ art e hf1]
    cases e.fault <;> simp
  · rw [SyncStatus_err_of_count g₁ _ _ status now t f₁ f₂ hn1,
      SyncStatus_err_of_count g₂ _ _ status now t f₁ f₂ hn2]
    cases t.begin <;> cases f₁ <;> rfl
  · rw [SyncStatus_err_of_count g₁ _ _ status now t f₁ f₂ hn1]
    cases t.begin <;> cases f₁ <;> simp

/-- Witness of C12: author 123 asks for article 4, once on empty tables and once on the
tables holding article 4 of author 233. -/
theorem not_found_same_as_not_owner_witness :
    ((GORMArticleDAO.init { articles := [], published := [] }).UpdateById (request 4) (Env.ok 1000)).2 =
      ((GORMArticleDAO.init othersDB).UpdateById (request 4) (Env.ok 1000)).2 ∧
    ((GORMArticleDAO.init { articles := [], published := [] }).UpdateById (request 4) (Env.ok 1000)).2 ≠
      none ∧
    ((GORMArticleDAO.init { articles := [], published := [] }).SyncStatus (request 4).Id
        (request 4).AuthorId 3 1000 TxEnv.ok none none).2 =
      ((GORMArticleDAO.init othersDB).SyncStatus (request 4).Id (request 4).AuthorId 3 1000
        TxEnv.ok none none).2 ∧
    ((GORMArticleDAO.init { articles := [], published := [] }).SyncStatus (request 4).Id
        (request 4).AuthorId 3 1000 TxEnv.ok none none).2 ≠ none :=
  not_found_same_as_not_owner (GORMArticleDAO.init { articles := [], published := [] })
    (GORMArticleDAO.init othersDB) (request 4)
    (by simp [GORMArticleDAO.init])
    ⟨othersArticle, by simp [GORMArticleDAO.init, othersDB], rfl⟩
    (by simp [GORMArticleDAO.init, othersDB, othersArticle, request])
    (Env.ok 1000) 3 1000 TxEnv.ok none none

/-! ## Upsert -/

/-- C13: when the driver accepts the statement and the article carries an id, Upsert leaves
the draft table alone; if the live table holds a row with that id, every live row keeps
its position, id, author and creation time, the rows with that id get the article's title,
content and status and update time now, and the other rows are unchanged; if it holds no
such row, the article is appended with creation and update time now. -/
theorem upsert_overwrites_four_columns (g : GORMArticleDAO) (art : Article) (e : Env)
    (hf : e.fault = none) (hid : art.Id ≠ 0) :
    (g.Upsert art e).2 = none ∧
    (g.Upsert art e).1.db.articles = g.db.articles ∧
    ((∃ r ∈ g.db.published, r.Id = art.Id) →
      (g.Upsert art e).1.db.published.length = g.db.published.length ∧
      ∀ (i : Nat) (r : Article), g.db.published[i]? = some r →
        ∃ r2 : Article, (g.Upsert art e).1.db.published[i]? = some r2 ∧
          r2.Id = r.Id ∧ r2.AuthorId = r.AuthorId ∧ r2.Ctime = r.Ctime ∧
          (r.Id = art.Id → r2.Title = art.Title ∧ r2.Content = art.Content ∧
            r2.Status = art.Status ∧ r2.Utime = e.now) ∧
          (r.Id ≠ art.Id → r2 = r)) ∧
    ((∀ r ∈ g.db.published, r.Id ≠ art.Id) →
      (g.Upsert art e).1.db.published =
        g.db.published ++ [{ art with Ctime := e.now, Utime := e.now }]) := by
  rw [Upsert_ok g art e hf hid]
  refine ⟨rfl, rfl, ?_, ?_⟩
  · rintro ⟨q, hq, hqid⟩
    have hany : g.db.published.any (hasId art.Id) = true :=
      List.any_eq_true.mpr ⟨q, hq, by simp [hasId, hqid]⟩
    simp only [upsertRows, hany, if_true, List.length_map, true_and]
    intro i r hr
    simp only [List.getElem?_map, hr, Option.map_some']
    by_cases hm : r.Id = art.Id
    · exact ⟨_, rfl, by simp [hasId, hm, assign]⟩
    · exact ⟨_, rfl, by simp [hasId, hm]⟩
  · intro hnone
    have hany : ¬ g.db.published.any (hasId art.Id) = true := by
      simp only [List.any_eq_true, not_exists, not_and]
      intro r hr
      simpa [hasId] using hnone r hr
    simp only [upsertRows, hany]
    rfl

/-- Witness of C13: article 3 is upserted on the tables that hold it. -/
theorem upsert_overwrites_four_columns_witness :
    ((GORMArticleDAO.init myDB).Upsert (request 3) (Env.ok 1000)).1.db =
      { articles := [myArticle],
        published := [{ myArticle with Title := "New Title", Content := "new content", Utime := 1000 }] } ∧
    ((GORMArticleDAO.init myDB).Upsert (request 3) (Env.ok 1000)).2 = none :=
  ⟨by decide, (upsert_overwrites_four_columns (GORMArticleDAO.init myDB) (request 3) (Env.ok 1000)
    rfl (by decide)).1⟩

/-! ## Rows keep their identity -/

theorem keepsIdentity_refl (l : List Article) : keepsIdentity l l :=
  fun _ r hr => ⟨r, hr, rfl, rfl, rfl⟩

theorem keepsIdentity_trans (l₁ l₂ l₃ : List Article) (h₁ : keepsIdentity l₁ l₂)
    (h₂ : keepsIdentity l₂ l₃) : keepsIdentity l₁ l₃ := by
  intro i r hr
  obtain ⟨r2, hr2, a, b, c⟩ := h₁ i r hr
  obtain ⟨r3, hr3, a3, b3, c3⟩ := h₂ i r2 hr2
  exact ⟨r3, hr3, a3.trans a, b3.trans b, c3.trans c⟩

theorem keepsIdentity_map (l : List Article) (f : Article → Article)
    (hf : ∀ r, (f r).Id = r.Id ∧ (f r).AuthorId = r.AuthorId ∧ (f r).Ctime = r.Ctime) :
    keepsIdentity l (l.map f) := by
  intro i r hr
  refine ⟨f r, ?_, hf r⟩
  simp [List.getElem?_map, hr]

theorem keepsIdentity_append (l l2 : List Article) : keepsIdentity l (l ++ l2) := by
  intro i r hr
  refine ⟨r, ?_, rfl, rfl, rfl⟩
  have hi : i < l.length := by
    by_contra hcon
    rw [List.getElem?_eq_none (by omega)] at hr
    cases hr
  rw [List.getElem?_append_left hi]
  exact hr

theorem keepsIdentity_updateRows (l : List Article) (art : Article) :
    keepsIdentity l (updateRows l art) := by
  apply keepsIdentity_map
  intro r
  split <;> simp [assign]

theorem keepsIdentity_upsertRows (l : List Article) (art : Article) :
    keepsIdentity l (upsertRows l art) := by
  unfold upsertRows
  split
  · apply keepsIdentity_map
    intro r
    split <;> simp [assign]
  · exact keepsIdentity_append l [art]

theorem keepsIdentity_mem (l l2 : List Article) (h : keepsIdentity l l2) :
    ∀ r ∈ l, ∃ r2 ∈ l2, r2.Id = r.Id := by
  intro r hr
  obtain ⟨i, hi⟩ := List.getElem?_of_mem hr
  obtain ⟨r2, hr2, hid, -, -⟩ := h i r hi
  exact ⟨r2, List.getElem?_mem hr2, hid⟩

theorem UpdateById_frame (g : GORMArticleDAO) (art : Article) (e : Env) :
    (g.UpdateById art e).1.staged = g.staged ∧
    (g.UpdateById art e).1.db.published = g.db.published ∧
    ((g.UpdateById art e).1.db.articles = g.db.articles ∨
      (g.UpdateById art e).1.db.articles = updateRows g.db.articles { art with Utime := e.now }) := by
  cases hf : e.fault with
  | some err => rw [UpdateById_fault g art e err hf]; exact ⟨rfl, rfl, Or.inl rfl⟩
  | none => rw [UpdateById_ok g art e hf]; exact ⟨rfl, rfl, Or.inr rfl⟩

theorem Insert_frame (g : GORMArticleDAO) (art : Article) (e : Env) :
    (g.Insert art e).1.staged = g.staged ∧
    (g.Insert art e).1.db.published = g.db.published ∧
    ((g.Insert art e).1.db.articles = g.db.articles ∨
      ∃ row, (g.Insert art e).1.db.articles = g.db.articles ++ [row]) := by
  cases hf : e.fault with
  | some err => rw [Insert_fault g art e err hf]; exact ⟨rfl, rfl, Or.inl rfl⟩
  | none =>
    rw [Insert_ok g art e hf]
    by_cases hany : g.db.articles.any (hasId (if art.Id = 0 then e.gen else art.Id)) = true
    · rw [if_pos hany]; exact ⟨rfl, rfl, Or.inl rfl⟩
    · rw [if_neg hany]; exact ⟨rfl, rfl, Or.inr ⟨_, rfl⟩⟩

theorem Upsert_frame (g : GORMArticleDAO) (art : Article) (e : Env) :
    (g.Upsert art e).1.staged = g.staged ∧
    (g.Upsert art e).1.db.articles = g.db.articles ∧
    keepsIdentity g.db.published (g.Upsert art e).1.db.published := by
  unfold GORMArticleDAO.Upsert
  cases e.fault with
  | some err => exact ⟨rfl, rfl, keepsIdentity_refl _⟩
  | none => exact ⟨rfl, rfl, keepsIdentity_upsertRows _ _⟩

/-- The tables after Sync are the tables after its draft statement, or after its draft
statement and its upsert. -/
theorem Sync_db (g : GORMArticleDAO) (art : Article) (t : TxEnv) (e₁ e₂ : Env) :
    (g.Sync art t e₁ e₂).1.db = g.db ∨
    (0 < art.Id ∧
      ((g.Sync art t e₁ e₂).1.db = (GORMArticleDAO.UpdateById { g with staged := [] } art e₁).1.db ∨
       ((GORMArticleDAO.UpdateById { g with staged := [] } art e₁).2 = none ∧
        (g.Sync art t e₁ e₂).1.db =
          ((GORMArticleDAO.UpdateById { g with staged := [] } art e₁).1.Upsert
            { art with Id := art.Id } e₂).1.db))) ∨
    (¬ 0 < art.Id ∧
      ((g.Sync art t e₁ e₂).1.db = (GORMArticleDAO.Insert { g with staged := [] } art e₁).1.db ∨
       ((GORMArticleDAO.Insert { g with staged := [] } art e₁).2.2 = none ∧
        (g.Sync art t e₁ e₂).1.db =
          ((GORMArticleDAO.Insert { g with staged := [] } art e₁).1.Upsert
            { art with Id := (GORMArticleDAO.Insert { g with staged := [] } art e₁).2.1 } e₂).1.db))) := by
  unfold GORMArticleDAO.Sync Transaction
  cases hb : t.begin with
  | some err => exact Or.inl rfl
  | none =>
    simp only
    by_cases hpos : art.Id > 0
    · right; left
      refine ⟨hpos, ?_⟩
      simp only [hpos, if_true]
      have hU := UpdateById_frame { g with staged := [] } art e₁
      rcases hu : GORMArticleDAO.UpdateById { g with staged := [] } art e₁ with ⟨u, uerr⟩
      rw [hu] at hU
      cases uerr with
      | some err => exact Or.inl rfl
      | none =>
        right
        refine ⟨rfl, ?_⟩
        have hV := Upsert_frame u { art with Id := art.Id } e₂
        rcases hv : GORMArticleDAO.Upsert u { art with Id := art.Id } e₂ with ⟨v, verr⟩
        rw [hv] at hV
        simp only at hU hV ⊢
        cases verr with
        | some err => rfl
        | none =>
          cases t.commit with
          | some err => rfl
          | none =>
            simp only [GORMArticleDAO.view, hV.1, hU.1, List.foldl_nil]
    · right; right
      refine ⟨hpos, ?_⟩
      simp only [hpos, if_false]
      have hI := Insert_frame { g with staged := [] } art e₁
      rcases hi : GORMArticleDAO.Insert { g with staged := [] } art e₁ with ⟨u, id, ierr⟩
      rw [hi] at hI
      cases ierr with
      | some err => exact Or.inl rfl
      | none =>
        right
        refine ⟨rfl, ?_⟩
        have hV := Upsert_frame u { art with Id := id } e₂
        rcases hv : GORMArticleDAO.Upsert u { art with Id := id } e₂ with ⟨v, verr⟩
        rw [hv] at hV
        simp only at hI hV ⊢
        cases verr with
        | some err => rfl
        | none =>
          cases t.commit with
          | some err => rfl
          | none =>
            simp only [GORMArticleDAO.view, hV.1, hI.1, List.foldl_nil]

/-- The tables after SyncStatus: untouched, or both status updates applied (which takes
exactly one matched draft row and no error). -/
theorem SyncStatus_db (g : GORMArticleDAO) (id usrId : Int) (status : Nat) (now : Int)
    (t : TxEnv) (f₁ f₂ : Option Error) :
    (g.SyncStatus id usrId status now t f₁ f₂).1.db = g.db ∨
    ((g.db.articles.filter (owned id usrId)).length = 1 ∧
      (g.SyncStatus id usrId status now t f₁ f₂).1.db =
        setPublishedStatus id status now (setArticleStatus id usrId status now g.db)) := by
  by_cases h1 : (g.db.articles.filter (owned id usrId)).length = 1
  · unfold GORMArticleDAO.SyncStatus Transaction
    cases t.begin <;> cases f₁ <;> cases f₂ <;> cases t.commit <;>
      simp [GORMArticleDAO.view, h1]
  · left
    rw [SyncStatus_err_of_count g id usrId status now t f₁ f₂ h1]
    cases t.begin <;> cases f₁ <;> rfl

/-- C15: for every draft table and every UpdateById, Sync or SyncStatus call, whatever the
caller, the clock and the errors of the driver, every draft row is still at its position
afterwards with the same id, author and creation time. -/
theorem draft_rows_keep_id_author_ctime (g : GORMArticleDAO) (art : Article) (e : Env)
    (t : TxEnv) (e₁ e₂ : Env) (id usrId : Int) (status : Nat) (now : Int)
    (f₁ f₂ : Option Error) :
    keepsIdentity g.db.articles (g.UpdateById art e).1.db.articles ∧
    keepsIdentity g.db.articles (g.Sync art t e₁ e₂).1.db.articles ∧
    keepsIdentity g.db.articles (g.SyncStatus id usrId status now t f₁ f₂).1.db.articles := by
  have hU : ∀ (g : GORMArticleDAO) (e : Env),
      keepsIdentity g.db.articles (g.UpdateById art e).1.db.articles := by
    intro g e
    rcases (UpdateById_frame g art e).2.2 with h | h
    · rw [h]; exact keepsIdentity_refl _
    · rw [h]; exact keepsIdentity_updateRows _ _
  have hI : ∀ (g : GORMArticleDAO) (e : Env),
      keepsIdentity g.db.articles (g.Insert art e).1.db.articles := by
    intro g e
    rcases (Insert_frame g art e).2.2 with h | ⟨row, h⟩
    · rw [h]; exact keepsIdentity_refl _
    · rw [h]; exact keepsIdentity_append _ _
  refine ⟨hU g e, ?_, ?_⟩
  · rcases Sync_db g art t e₁ e₂ with h | ⟨-, h | ⟨-, h⟩⟩ | ⟨-, h | ⟨-, h⟩⟩
    · rw [h]; exact keepsIdentity_refl _
    · rw [h]; exact hU { g with staged := [] } e₁
    · rw [h, (Upsert_frame _ _ _).2.1]; exact hU { g with staged := [] } e₁
    · rw [h]; exact hI { g with staged := [] } e₁
    · rw [h, (Upsert_frame _ _ _).2.1]; exact hI { g with staged := [] } e₁
  · rcases SyncStatus_db g id usrId status now t f₁ f₂ with h | ⟨-, h⟩
    · rw [h]; exact keepsIdentity_refl _
    · rw [h]
      apply keepsIdentity_map
      intro r
      split <;> simp

/-! ## Live rows have draft rows -/

theorem noRowRemoved_refl (d : DB) : noRowRemoved d d :=
  ⟨keepsIdentity_refl _, keepsIdentity_refl _⟩

theorem liveInDraft_of_same_published (d d2 : DB) (h : liveInDraft d)
    (ha : keepsIdentity d.articles d2.articles) (hp : d2.published = d.published) :
    liveInDraft d2 := by
  intro p hpm
  rw [hp] at hpm
  obtain ⟨q, hq, hqid⟩ := h p hpm
  obtain ⟨q2, hq2, hq2id⟩ := keepsIdentity_mem _ _ ha q hq
  exact ⟨q2, hq2, hq2id.trans hqid⟩

theorem upsertRows_ids (l : List Article) (art : Article) :
    ∀ p ∈ upsertRows l art, (∃ q ∈ l, q.Id = p.Id) ∨ p.Id = art.Id := by
  intro p hp
  unfold upsertRows at hp
  split at hp
  · obtain ⟨q, hq, hqp⟩ := List.mem_map.mp hp
    left
    refine ⟨q, hq, ?_⟩
    rw [← hqp]
    split <;> simp [assign]
  · rcases List.mem_append.mp hp with h | h
    · exact Or.inl ⟨p, h, rfl⟩
    · right
      rw [List.mem_singleton.mp h]

theorem Upsert_published (g : GORMArticleDAO) (art : Article) (e : Env) (hid : art.Id ≠ 0) :
    (g.Upsert art e).1.db.published = g.db.published ∨
    (g.Upsert art e).1.db.published =
      upsertRows g.db.published { art with Ctime := e.now, Utime := e.now } := by
  cases hf : e.fault with
  | some err => rw [Upsert_fault g art e err hf]; exact Or.inl rfl
  | none => rw [Upsert_ok g art e hf hid]; exact Or.inr rfl

/-- Upsert of an article whose id is the id of a draft row keeps every live id among the
draft ids. -/
theorem liveInDraft_Upsert (g : GORMArticleDAO) (art : Article) (e : Env) (hid : art.Id ≠ 0)
    (h : liveInDraft g.db) (hd : ∃ d ∈ g.db.articles, d.Id = art.Id) :
    liveInDraft (g.Upsert art e).1.db := by
  intro p hp
  rw [(Upsert_frame g art e).2.1]
  rcases Upsert_published g art e hid with hpub | hpub
  · rw [hpub] at hp
    exact h p hp
  · rw [hpub] at hp
    rcases upsertRows_ids _ _ p hp with ⟨q, hq, hqid⟩ | hpid
    · obtain ⟨d, hdm, hdid⟩ := h q hq
      exact ⟨d, hdm, hdid.trans hqid⟩
    · obtain ⟨d, hdm, hdid⟩ := hd
      exact ⟨d, hdm, hdid.trans hpid.symm⟩

theorem step_UpdateById (g : GORMArticleDAO) (art : Article) (e : Env) (h : liveInDraft g.db) :
    liveInDraft (g.UpdateById art e).1.db ∧ noRowRemoved g.db (g.UpdateById art e).1.db := by
  have hk : keepsIdentity g.db.articles (g.UpdateById art e).1.db.articles := by
    rcases (UpdateById_frame g art e).2.2 with h2 | h2
    · rw [h2]; exact keepsIdentity_refl _
    · rw [h2]; exact keepsIdentity_updateRows _ _
  refine ⟨liveInDraft_of_same_published _ _ h hk (UpdateById_frame g art e).2.1, hk, ?_⟩
  rw [(UpdateById_frame g art e).2.1]
  exact keepsIdentity_refl _

theorem step_Insert (g : GORMArticleDAO) (art : Article) (e : Env) (h : liveInDraft g.db) :
    liveInDraft (g.Insert art e).1.db ∧ noRowRemoved g.db (g.Insert art e).1.db := by
  have hk : keepsIdentity g.db.articles (g.Insert art e).1.db.articles := by
    rcases (Insert_frame g art e).2.2 with h2 | ⟨row, h2⟩
    · rw [h2]; exact keepsIdentity_refl _
    · rw [h2]; exact keepsIdentity_append _ _
  refine ⟨liveInDraft_of_same_published _ _ h hk (Insert_frame g art e).2.1, hk, ?_⟩
  rw [(Insert_frame g art e).2.1]
  exact keepsIdentity_refl _

theorem step_SyncStatus (g : GORMArticleDAO) (id usrId : Int) (status : Nat) (now : Int)
    (t : TxEnv) (f₁ f₂ : Option Error) (h : liveInDraft g.db) :
    liveInDraft (g.SyncStatus id usrId status now t f₁ f₂).1.db ∧
    noRowRemoved g.db (g.SyncStatus id usrId status now t f₁ f₂).1.db := by
  rcases SyncStatus_db g id usrId status now t f₁ f₂ with h2 | ⟨-, h2⟩
  · rw [h2]; exact ⟨h, noRowRemoved_refl _⟩
  · rw [h2]
    have ha : keepsIdentity g.db.articles
        (setPublishedStatus id status now (setArticleStatus id usrId status now g.db)).articles := by
      apply keepsIdentity_map
      intro r
      split <;> simp
    have hp : keepsIdentity g.db.published
        (setPublishedStatus id status now (setArticleStatus id usrId status now g.db)).published := by
      apply keepsIdentity_map
      intro r
      split <;> simp
    refine ⟨?_, ha, hp⟩
    intro p hpm
    obtain ⟨q, hq, hqp⟩ := List.mem_map.mp hpm
    have hid : p.Id = q.Id := by
      rw [← hqp]
      split <;> rfl
    obtain ⟨d, hd, hdid⟩ := h q hq
    obtain ⟨d2, hd2, hd2id⟩ := keepsIdentity_mem _ _ ha d hd
    exact ⟨d2, hd2, by rw [hd2id, hdid, hid]⟩

theorem step_Sync (g : GORMArticleDAO) (art : Article) (t : TxEnv) (e₁ e₂ : Env)
    (hgen : e₁.gen ≠ 0) (h : liveInDraft g.db) :
    liveInDraft (g.Sync art t e₁ e₂).1.db ∧ noRowRemoved g.db (g.Sync art t e₁ e₂).1.db := by
  have h0 : liveInDraft (GORMArticleDAO.db { g with staged := [] }) := h
  rcases Sync_db g art t e₁ e₂ with h2 | ⟨hpos, h2 | ⟨hok, h2⟩⟩ | ⟨hpos, h2 | ⟨hok, h2⟩⟩
  · rw [h2]; exact ⟨h, noRowRemoved_refl _⟩
  · rw [h2]; exact step_UpdateById { g with staged := [] } art e₁ h0
  · rw [h2]
    obtain ⟨hu1, hu2, hu3⟩ := step_UpdateById { g with staged := [] } art e₁ h0
    obtain ⟨-, -, d, hd, hdid, -⟩ := UpdateById_post { g with staged := [] } art e₁ hok
    have hmem := List.mem_of_find?_eq_some hd
    refine ⟨liveInDraft_Upsert _ _ _ (ne_of_gt hpos) hu1 ⟨d, hmem, hdid⟩, ?_, ?_⟩
    · rw [(Upsert_frame _ _ _).2.1]; exact hu2
    · exact keepsIdentity_trans _ _ _ hu3 (Upsert_frame _ _ _).2.2
  · rw [h2]; exact step_Insert { g with staged := [] } art e₁ h0
  · rw [h2]
    obtain ⟨hu1, hu2, hu3⟩ := step_Insert { g with staged := [] } art e₁ h0
    obtain ⟨-, -, hid, d, hd, hdid, -⟩ := Insert_post { g with staged := [] } art e₁ hok
    have hmem := List.mem_of_find?_eq_some hd
    have hne : (GORMArticleDAO.Insert { g with staged := [] } art e₁).2.1 ≠ 0 := by
      rw [hid]
      split
      · exact hgen
      · assumption
    refine ⟨liveInDraft_Upsert _ _ _ hne hu1 ⟨d, hmem, hdid⟩, ?_, ?_⟩
    · rw [(Upsert_frame _ _ _).2.1]; exact hu2
    · exact keepsIdentity_trans _ _ _ hu3 (Upsert_frame _ _ _).2.2

section

variable {σ κ : Type}

theorem store_logCacheError (a : articleRepository σ κ) (err : Option Error) (msg : String) :
    (a.logCacheError err msg).store = a.store := by
  unfold articleRepository.logCacheError
  split <;> rfl

theorem store_cacheDelete (a : articleRepository σ κ) (id uid : Int) :
    (a.cacheDelete id uid).1.store = a.store := rfl

theorem store_cacheDeleteFirstPage (a : articleRepository σ κ) (uid : Int) :
    (a.cacheDeleteFirstPage uid).1.store = a.store := rfl

theorem store_Create (a : articleRepository σ κ) (art : domain.Article) :
    (a.Create art).1.store = (a.artDao.Insert a.store (toEntity art)).1 := by
  unfold articleRepository.Create articleRepository.daoInsert
  rcases a.artDao.Insert a.store (toEntity art) with ⟨s, id, err⟩
  cases err with
  | some e => rfl
  | none => simp only [store_logCacheError, store_cacheDelete, store_cacheDeleteFirstPage]

theorem store_Update (a : articleRepository σ κ) (art : domain.Article) :
    (a.Update art).1.store = (a.artDao.UpdateById a.store (toEntity art)).1 := by
  unfold articleRepository.Update articleRepository.daoUpdateById
  rcases a.artDao.UpdateById a.store (toEntity art) with ⟨s, err⟩
  cases err with
  | some e => rfl
  | none => simp only [store_logCacheError, store_cacheDelete, store_cacheDeleteFirstPage]

theorem store_Sync (a : articleRepository σ κ) (art : domain.Article) :
    (a.Sync art).1.store = (a.artDao.Sync a.store (toEntity art)).1 := by
  unfold articleRepository.Sync articleRepository.daoSync
  rcases a.artDao.Sync a.store (toEntity art) with ⟨s, id, err⟩
  cases err with
  | some e => rfl
  | none => simp only [store_logCacheError, store_cacheDelete, store_cacheDeleteFirstPage]

theorem store_SyncStatus (a : articleRepository σ κ) (id usrId : Int) (status : Nat) :
    (a.SyncStatus id usrId status).1.store = (a.artDao.SyncStatus a.store id usrId status).1 := by
  unfold articleRepository.SyncStatus articleRepository.daoSyncStatus
  rcases a.artDao.SyncStatus a.store id usrId status with ⟨s, err⟩
  cases err with
  | some e => rfl
  | none => simp only [store_logCacheError, store_cacheDelete, store_cacheDeleteFirstPage]

/-- C14: the predicate "every id of the live table is the id of a draft row" holds of the
empty tables, and for a repository over the GORM DAO (the database generating non-zero
identifiers) it still holds after Create, Update, Sync and SyncStatus, whatever errors the
driver and the cache report; after each of them every row of both tables is still there
under its id. -/
theorem live_rows_have_draft_rows (a : articleRepository GORMArticleDAO κ) (t : TxEnv)
    (e₁ e₂ : Env) (hdao : a.artDao = GORMArticleDAO.asDAO t e₁ e₂) (hgen : e₁.gen ≠ 0)
    (hinv : liveInDraft a.store.db) (art : domain.Article) (id usrId : Int) (status : Nat) :
    liveInDraft { articles := [], published := [] } ∧
    (liveInDraft (a.Create art).1.store.db ∧ noRowRemoved a.store.db (a.Create art).1.store.db) ∧
    (liveInDraft (a.Update art).1.store.db ∧ noRowRemoved a.store.db (a.Update art).1.store.db) ∧
    (liveInDraft (a.Sync art).1.store.db ∧ noRowRemoved a.store.db (a.Sync art).1.store.db) ∧
    (liveInDraft (a.SyncStatus id usrId status).1.store.db ∧
      noRowRemoved a.store.db (a.SyncStatus id usrId status).1.store.db) := by
  refine ⟨?_, ?_, ?_, ?_, ?_⟩
  · intro p hp
    cases hp
  · rw [store_Create, hdao]
    exact step_Insert a.store (toEntity art) e₁ hinv
  · rw [store_Update, hdao]
    exact step_UpdateById a.store (toEntity art) e₁ hinv
  · rw [store_Sync, hdao]
    exact step_Sync a.store (toEntity art) t e₁ e₂ hgen hinv
  · rw [store_SyncStatus, hdao]
    exact step_SyncStatus a.store id usrId status e₁.now t e₁.fault e₂.fault hinv

end

/-- Witness of C14: the repository over the tables holding article 3 of author 123. -/
theorem live_rows_have_draft_rows_witness :
    liveInDraft (gormRepository myDB cache.Mem.empty).store.db ∧
    liveInDraft ((gormRepository myDB cache.Mem.empty).Sync newArticle).1.store.db ∧
    ((gormRepository myDB cache.Mem.empty).Sync newArticle).1.store.db =
      { articles := [myArticle, { toEntity newArticle with Id := 1, Ctime := 1000, Utime := 1000 }],
        published := [myArticle, { toEntity newArticle with Id := 1, Ctime := 1000, Utime := 1000 }] } :=
  ⟨by unfold liveInDraft; decide,
   (live_rows_have_draft_rows (gormRepository myDB cache.Mem.empty) TxEnv.ok (Env.ok 1000)
      (Env.ok 1000) rfl (by decide) (by unfold liveInDraft; decide) newArticle 3 123 3).2.2.2.1.1,
   by decide⟩

/-! ## The service fixes the status -/

section

variable {σ κ : Type}

theorem calls_logCacheError (a : articleRepository σ κ) (err : Option Error) (msg : String) :
    (a.logCacheError err msg).calls = a.calls := by
  unfold articleRepository.logCacheError
  split <;> rfl

theorem calls_cacheDelete (a : articleRepository σ κ) (id uid : Int) :
    (a.cacheDelete id uid).1.calls = a.calls ++ [Call.Delete id uid] := rfl

theorem calls_cacheDeleteFirstPage (a : articleRepository σ κ) (uid : Int) :
    (a.cacheDeleteFirstPage uid).1.calls = a.calls ++ [Call.DeleteFirstPage uid] := rfl

/-- Calls made by Create: Insert with the entity of the article, then cache calls only. -/
theorem calls_Create (a : articleRepository σ κ) (art : domain.Article) :
    ∃ l, (a.Create art).1.calls = a.calls ++ Call.Insert (toEntity art) :: l ∧
      ∀ c ∈ l, c.isCache = true := by
  unfold articleRepository.Create articleRepository.daoInsert
  rcases a.artDao.Insert a.store (toEntity art) with ⟨s, id, err⟩
  cases err with
  | some e => exact ⟨[], by simp, by simp⟩
  | none =>
    refine ⟨[Call.DeleteFirstPage art.Author.Id], ?_, by simp [Call.isCache]⟩
    simp [calls_logCacheError, calls_cacheDeleteFirstPage]

/-- Calls made by Update: UpdateById with the entity of the article, then cache calls only. -/
theorem calls_Update (a : articleRepository σ κ) (art : domain.Article) :
    ∃ l, (a.Update art).1.calls = a.calls ++ Call.UpdateById (toEntity art) :: l ∧
      ∀ c ∈ l, c.isCache = true := by
  unfold articleRepository.Update articleRepository.daoUpdateById
  rcases a.artDao.UpdateById a.store (toEntity art) with ⟨s, err⟩
  cases err with
  | some e => exact ⟨[], by simp, by simp⟩
  | none =>
    refine ⟨[Call.DeleteFirstPage art.Author.Id, Call.Delete art.Id art.Author.Id], ?_,
      by simp [Call.isCache]⟩
    simp [calls_logCacheError, calls_cacheDeleteFirstPage, calls_cacheDelete]

/-- Calls made by Sync: Sync of the DAO with the entity of the article, then cache calls
only. -/
theorem calls_Sync (a : articleRepository σ κ) (art : domain.Article) :
    ∃ l, (a.Sync art).1.calls = a.calls ++ Call.Sync (toEntity art) :: l ∧
      ∀ c ∈ l, c.isCache = true := by
  unfold articleRepository.Sync articleRepository.daoSync
  rcases a.artDao.Sync a.store (toEntity art) with ⟨s, id, err⟩
  cases err with
  | some e => exact ⟨[], by simp, by simp⟩
  | none =>
    refine ⟨[Call.DeleteFirstPage art.Author.Id, Call.Delete id art.Author.Id], ?_,
      by simp [Call.isCache]⟩
    simp [calls_logCacheError, calls_cacheDeleteFirstPage, calls_cacheDelete]

/-- Calls made by SyncStatus: SyncStatus of the DAO, then cache calls only. -/
theorem calls_SyncStatus (a : articleRepository σ κ) (id usrId : Int) (status : Nat) :
    ∃ l, (a.SyncStatus id usrId status).1.calls =
        a.calls ++ Call.SyncStatus id usrId status :: l ∧
      ∀ c ∈ l, c.isCache = true := by
  unfold articleRepository.SyncStatus articleRepository.daoSyncStatus
  rcases a.artDao.SyncStatus a.store id usrId status with ⟨s, err⟩
  cases err with
  | some e => exact ⟨[], by simp, by simp⟩
  | none =>
    refine ⟨[Call.DeleteFirstPage usrId, Call.Delete id usrId], ?_, by simp [Call.isCache]⟩
    simp [calls_logCacheError, calls_cacheDeleteFirstPage, calls_cacheDelete]

end

section

variable {σ κ : Type}

theorem mem_logCacheError (a : articleRepository σ κ) (err : Option Error) (msg : String) :
    (a.logCacheError err msg).mem = a.mem := by
  unfold articleRepository.logCacheError
  split <;> rfl

theorem cache_logCacheError (a : articleRepository σ κ) (err : Option Error) (msg : String) :
    (a.logCacheError err msg).cache = a.cache := by
  unfold articleRepository.logCacheError
  split <;> rfl

/-- What Update returns and leaves in the cache, in terms of what the DAO and the cache
return. -/
theorem Update_result (a : articleRepository σ κ) (art : domain.Article) :
    (a.Update art).2 = (a.artDao.UpdateById a.store (toEntity art)).2 ∧
    ((a.artDao.UpdateById a.store (toEntity art)).2 ≠ none → (a.Update art).1.mem = a.mem) ∧
    ((a.artDao.UpdateById a.store (toEntity art)).2 = none →
      (a.Update art).1.mem =
        (a.cache.Delete (a.cache.DeleteFirstPage a.mem art.Author.Id).1 art.Id art.Author.Id).1) := by
  unfold articleRepository.Update articleRepository.daoUpdateById
  rcases a.artDao.UpdateById a.store (toEntity art) with ⟨s, err⟩
  cases err with
  | some e => exact ⟨rfl, fun _ => rfl, fun h => by cases h⟩
  | none =>
    refine ⟨rfl, fun h => absurd rfl h, fun _ => ?_⟩
    simp only [mem_logCacheError, cache_logCacheError, articleRepository.cacheDelete,
      articleRepository.cacheDeleteFirstPage]

/-- What Create returns and leaves in the cache, in terms of what the DAO and the cache
return. -/
theorem Create_result (a : articleRepository σ κ) (art : domain.Article) :
    (∀ e, (a.artDao.Insert a.store (toEntity art)).2.2 = some e →
      (a.Create art).2 = (0, some e) ∧ (a.Create art).1.mem = a.mem) ∧
    ((a.artDao.Insert a.store (toEntity art)).2.2 = none →
      (a.Create art).2.1 = (a.artDao.Insert a.store (toEntity art)).2.1 ∧
      (a.Create art).1.mem = (a.cache.DeleteFirstPage a.mem art.Author.Id).1) := by
  unfold articleRepository.Create articleRepository.daoInsert
  rcases a.artDao.Insert a.store (toEntity art) with ⟨s, id, err⟩
  cases err with
  | some e =>
    refine ⟨fun e2 h => ?_, fun h => by cases h⟩
    simp only [Option.some.injEq] at h
    subst h
    exact ⟨rfl, rfl⟩
  | none =>
    refine ⟨fun e2 h => (nomatch h), fun _ => ⟨rfl, ?_⟩⟩
    simp only [mem_logCacheError, articleRepository.cacheDeleteFirstPage]

/-- What Sync returns and leaves in the cache, in terms of what the DAO and the cache
return. -/
theorem Sync_result (a : articleRepository σ κ) (art : domain.Article) :
    (∀ e, (a.artDao.Sync a.store (toEntity art)).2.2 = some e →
      (a.Sync art).2 = (0, some e) ∧ (a.Sync art).1.mem = a.mem) ∧
    ((a.artDao.Sync a.store (toEntity art)).2.2 = none →
      (a.Sync art).2.1 = (a.artDao.Sync a.store (toEntity art)).2.1 ∧
      (a.Sync art).1.mem =
        (a.cache.Delete (a.cache.DeleteFirstPage a.mem art.Author.Id).1
          (a.artDao.Sync a.store (toEntity art)).2.1 art.Author.Id).1) := by
  unfold articleRepository.Sync articleRepository.daoSync
  rcases a.artDao.Sync a.store (toEntity art) with ⟨s, id, err⟩
  cases err with
  | some e =>
    refine ⟨fun e2 h => ?_, fun h => by cases h⟩
    simp only [Option.some.injEq] at h
    subst h
    exact ⟨rfl, rfl⟩
  | none =>
    refine ⟨fun e2 h => (nomatch h), fun _ => ⟨rfl, ?_⟩⟩
    simp only [mem_logCacheError, cache_logCacheError, articleRepository.cacheDelete,
      articleRepository.cacheDeleteFirstPage]

/-- What SyncStatus returns and leaves in the cache, in terms of what the DAO and the
cache return. -/
theorem SyncStatus_result (a : articleRepository σ κ) (id usrId : Int) (status : Nat) :
    (∀ e, (a.artDao.SyncStatus a.store id usrId status).2 = some e →
      (a.SyncStatus id usrId status).2 = some e ∧ (a.SyncStatus id usrId status).1.mem = a.mem) ∧
    ((a.artDao.SyncStatus a.store id usrId status).2 = none →
      (a.SyncStatus id usrId status).1.mem =
        (a.cache.Delete (a.cache.DeleteFirstPage a.mem usrId).1 id usrId).1) := by
  unfold articleRepository.SyncStatus articleRepository.daoSyncStatus
  rcases a.artDao.SyncStatus a.store id usrId status with ⟨s, err⟩
  cases err with
  | some e =>
    refine ⟨fun e2 h => ?_, fun h => by cases h⟩
    simp only [Option.some.injEq] at h
    subst h
    exact ⟨rfl, rfl⟩
  | none =>
    refine ⟨fun e2 h => (nomatch h), fun _ => ?_⟩
    simp only [mem_logCacheError, cache_logCacheError, articleRepository.cacheDelete,
      articleRepository.cacheDeleteFirstPage]

end

/-- C16: whatever status the input article carries, Save calls Update (returning the given
id) when the id is positive and Create otherwise, in both cases with status Unpublished,
and makes no other DAO call; over the GORM DAO it leaves the live table as it was.
Publish calls Sync with status Published, and Withdraw calls SyncStatus with status
Private.  In each case the store is left as that DAO call leaves it, an error of the DAO is
returned to the caller (with id 0 from Create and Sync) and leaves the cache alone, the id
returned on success is the one the DAO returns, and on success the cache is as
DeleteFirstPage and Delete leave it. -/
theorem service_fixes_status {κ : Type} (s : service.articleService GORMArticleDAO κ)
    (art : domain.Article) (id usrId : Int) (t : TxEnv) (e₁ e₂ : Env) :
    (∃ l, (s.Save art).1.r.calls =
        s.r.calls ++
          (if art.Id > 0 then
            Call.UpdateById { toEntity art with Status := domain.ArticleStatusUnpublished }
          else Call.Insert { toEntity art with Status := domain.ArticleStatusUnpublished }) :: l ∧
      ∀ c ∈ l, c.isCache = true) ∧
    (art.Id > 0 → (s.Save art).2.1 = art.Id) ∧
    (s.r.artDao = GORMArticleDAO.asDAO t e₁ e₂ →
      (s.Save art).1.r.store.db.published = s.r.store.db.published) ∧
    (∃ l, (s.Publish art).1.r.calls =
        s.r.calls ++ Call.Sync { toEntity art with Status := domain.ArticleStatusPublished } :: l ∧
      ∀ c ∈ l, c.isCache = true) ∧
    (∃ l, (s.Withdraw id usrId).1.r.calls =
        s.r.calls ++ Call.SyncStatus id usrId domain.ArticleStatusPrivate :: l ∧
      ∀ c ∈ l, c.isCache = true) ∧
    (art.Id > 0 →
      (s.Save art).1.r.store =
        (s.r.artDao.UpdateById s.r.store
          { toEntity art with Status := domain.ArticleStatusUnpublished }).1 ∧
      (s.Save art).2 =
        (art.Id, (s.r.artDao.UpdateById s.r.store
          { toEntity art with Status := domain.ArticleStatusUnpublished }).2)) ∧
    (¬ art.Id > 0 →
      (s.Save art).1.r.store =
        (s.r.artDao.Insert s.r.store
          { toEntity art with Status := domain.ArticleStatusUnpublished }).1 ∧
      (∀ e, (s.r.artDao.Insert s.r.store
          { toEntity art with Status := domain.ArticleStatusUnpublished }).2.2 = some e →
        (s.Save art).2 = (0, some e) ∧ (s.Save art).1.r.mem = s.r.mem) ∧
      ((s.r.artDao.Insert s.r.store
          { toEntity art with Status := domain.ArticleStatusUnpublished }).2.2 = none →
        (s.Save art).2.1 =
          (s.r.artDao.Insert s.r.store
            { toEntity art with Status := domain.ArticleStatusUnpublished }).2.1)) ∧
    ((s.Publish art).1.r.store =
        (s.r.artDao.Sync s.r.store
          { toEntity art with Status := domain.ArticleStatusPublished }).1 ∧
      (∀ e, (s.r.artDao.Sync s.r.store
          { toEntity art with Status := domain.ArticleStatusPublished }).2.2 = some e →
        (s.Publish art).2 = (0, some e) ∧ (s.Publish art).1.r.mem = s.r.mem) ∧
      ((s.r.artDao.Sync s.r.store
          { toEntity art with Status := domain.ArticleStatusPublished }).2.2 = none →
        (s.Publish art).2.1 =
          (s.r.artDao.Sync s.r.store
            { toEntity art with Status := domain.ArticleStatusPublished }).2.1 ∧
        (s.Publish art).1.r.mem =
          (s.r.cache.Delete (s.r.cache.DeleteFirstPage s.r.mem art.Author.Id).1
            (s.r.artDao.Sync s.r.store
              { toEntity art with Status := domain.ArticleStatusPublished }).2.1
            art.Author.Id).1)) ∧
    ((s.Withdraw id usrId).1.r.store =
        (s.r.artDao.SyncStatus s.r.store id usrId domain.ArticleStatusPrivate).1 ∧
      (∀ e, (s.r.artDao.SyncStatus s.r.store id usrId domain.ArticleStatusPrivate).2 = some e →
        (s.Withdraw id usrId).2 = some e ∧ (s.Withdraw id usrId).1.r.mem = s.r.mem) ∧
      ((s.r.artDao.SyncStatus s.r.store id usrId domain.ArticleStatusPrivate).2 = none →
        (s.Withdraw id usrId).1.r.mem =
          (s.r.cache.Delete (s.r.cache.DeleteFirstPage s.r.mem usrId).1 id usrId).1)) ∧
    (s.r.artDao = GORMArticleDAO.asDAO t e₁ e₂ →
      (s.Publish art).1.r.store =
        (s.r.store.Sync { toEntity art with Status := domain.ArticleStatusPublished } t e₁ e₂).1 ∧
      (s.Withdraw id usrId).1.r.store =
        (s.r.store.SyncStatus id usrId domain.ArticleStatusPrivate e₁.now t e₁.fault e₂.fault).1) := by
  refine ⟨?_, ?_, ?_, ?_, ?_, ?_, ?_, ?_, ?_, ?_⟩
  · unfold service.articleService.Save
    by_cases hpos : art.Id > 0
    · simp only [hpos, if_true]
      exact calls_Update s.r { art with Status := domain.ArticleStatusUnpublished }
    · simp only [hpos, if_false]
      exact calls_Create s.r { art with Status := domain.ArticleStatusUnpublished }
  · intro hpos
    unfold service.articleService.Save
    simp only [hpos, if_true]
  · intro hdao
    unfold service.articleService.Save
    by_cases hpos : art.Id > 0
    · simp only [hpos, if_true]
      rw [store_Update, hdao]
      exact (UpdateById_frame _ _ _).2.1
    · simp only [hpos, if_false]
      rw [store_Create, hdao]
      exact (Insert_frame _ _ _).2.1
  · exact calls_Sync s.r { art with Status := domain.ArticleStatusPublished }
  · exact calls_SyncStatus s.r id usrId domain.ArticleStatusPrivate
  · intro hpos
    unfold service.articleService.Save
    simp only [hpos, if_true]
    exact ⟨store_Update s.r { art with Status := domain.ArticleStatusUnpublished },
      Prod.ext rfl (Update_result s.r { art with Status := domain.ArticleStatusUnpublished }).1⟩
  · intro hpos
    unfold service.articleService.Save
    simp only [hpos, if_false]
    have h := Create_result s.r { art with Status := domain.ArticleStatusUnpublished }
    exact ⟨store_Create s.r { art with Status := domain.ArticleStatusUnpublished },
      fun e he => h.1 e he, fun he => (h.2 he).1⟩
  · have h := Sync_result s.r { art with Status := domain.ArticleStatusPublished }
    exact ⟨store_Sync s.r { art with Status := domain.ArticleStatusPublished },
      fun e he => h.1 e he, fun he => h.2 he⟩
  · have h := SyncStatus_result s.r id usrId domain.ArticleStatusPrivate
    exact ⟨store_SyncStatus s.r id usrId domain.ArticleStatusPrivate,
      fun e he => h.1 e he, fun he => h.2 he⟩
  · intro hdao
    refine ⟨?_, ?_⟩
    · show (s.r.Sync { art with Status := domain.ArticleStatusPublished }).1.store = _
      rw [store_Sync, hdao]
      rfl
    · show (s.r.SyncStatus id usrId domain.ArticleStatusPrivate).1.store = _
      rw [store_SyncStatus, hdao]
      rfl

/-- Witness of C16: author 123 saves article 3, sent with status Published, over the
tables that hold it: the draft row becomes Unpublished and the live row stays as it was.
Author 123 publishes a new article sent with status Unpublished on empty tables: both
tables get it as article 1 with status Published.  Author 123 withdraws article 3: both
rows get status Private.  A withdrawal for which the driver reports an error returns that
error. -/
theorem service_fixes_status_witness :
    ((service.NewArticleService (gormRepository myDB cache.Mem.empty)).Save
      (toDomain (request 3))).1.r.store.db =
      { articles :=
          [{ myArticle with Title := "New Title", Content := "new content", Utime := 1000, Status := 1 }],
        published := [myArticle] } ∧
    ((service.NewArticleService (gormRepository myDB cache.Mem.empty)).Save
      (toDomain (request 3))).1.r.store.db.published =
      (service.NewArticleService (gormRepository myDB cache.Mem.empty)).r.store.db.published ∧
    ((service.NewArticleService (gormRepository { articles := [], published := [] }
      cache.Mem.empty)).Publish newArticle).1.r.store.db =
      { articles := [{ toEntity newArticle with Id := 1, Ctime := 1000, Utime := 1000, Status := 2 }],
        published := [{ toEntity newArticle with Id := 1, Ctime := 1000, Utime := 1000, Status := 2 }] } ∧
    ((service.NewArticleService (gormRepository { articles := [], published := [] }
      cache.Mem.empty)).Publish newArticle).2.1 = 1 ∧
    ((service.NewArticleService (gormRepository myDB cache.Mem.empty)).Withdraw 3 123).1.r.store.db =
      { articles := [{ myArticle with Utime := 1000, Status := 3 }],
        published := [{ myArticle with Utime := 1000, Status := 3 }] } ∧
    ((service.NewArticleService (downRepository myDB cache.Mem.empty)).Withdraw 3 123).2 =
      some (Error.driver 2006) ∧
    ((service.NewArticleService (downRepository myDB cache.Mem.empty)).Withdraw 3 123).1.r.store.db =
      myDB :=
  ⟨by decide,
   (service_fixes_status (service.NewArticleService (gormRepository myDB cache.Mem.empty))
      (toDomain (request 3)) 3 123 TxEnv.ok (Env.ok 1000) (Env.ok 1000)).2.2.1 rfl,
   by decide, by decide, by decide,
   ((service_fixes_status (service.NewArticleService (downRepository myDB cache.Mem.empty))
      (toDomain (request 3)) 3 123 TxEnv.ok (Env.down 1000) (Env.down 1000)).2.2.2.2.2.2.2.2.1.2.1
      (Error.driver 2006) (by decide)).1,
   by decide⟩

/-! ## GetById -/

/-- C17: when the cache lookup of GetById reports an error and the draft-store read
succeeds, the value returned is the store row in domain form, and the goroutine calls Set
of the single-article cache with the value the cache lookup returned. -/
theorem getById_sets_lookup_value {σ κ : Type} (a : articleRepository σ κ) (id uid : Int)
    (m : κ) (art : domain.Article) (e : Error) (s : σ) (dArt : article.Article)
    (hget : a.cache.Get a.mem id uid = (m, art, some e))
    (hfind : a.artDao.FindById a.store id uid = (s, dArt, none)) :
    (a.GetById id uid).out = some (toDomain dArt, none) ∧
    (a.GetById id uid).st.calls = a.calls ++ [Call.Get id uid, Call.FindById id uid] ∧
    (a.GetById id uid).wait.1.calls =
      a.calls ++ [Call.Get id uid, Call.FindById id uid, Call.Set art] := by
  unfold articleRepository.GetById articleRepository.cacheGet
  simp only [hget]
  unfold articleRepository.daoFindById
  simp only [hfind]
  refine ⟨trivial, by simp, ?_⟩
  simp only [Ret.wait, articleRepository.cacheSet]
  split <;> simp [articleRepository.logError]

/-- Witness of C17: article 1 of author 123 is read while the cache holds only article 2. -/
theorem getById_sets_lookup_value_witness :
    ((fixedRepository [sampleRow 1] oneCached).GetById 1 123).out = some (sample 1, none) ∧
    ((fixedRepository [sampleRow 1] oneCached).GetById 1 123).st.calls =
      (fixedRepository [sampleRow 1] oneCached).calls ++ [Call.Get 1 123, Call.FindById 1 123] ∧
    ((fixedRepository [sampleRow 1] oneCached).GetById 1 123).wait.1.calls =
      (fixedRepository [sampleRow 1] oneCached).calls ++
        [Call.Get 1 123, Call.FindById 1 123, Call.Set domain.Article.zero] :=
  getById_sets_lookup_value (fixedRepository [sampleRow 1] oneCached) 1 123
    { firstPage := [], articles := [sample 2], faults := [] } domain.Article.zero
    Error.ErrKeyNotExisted () (sampleRow 1) (by decide) (by decide)

/-! ## The slice expression of the population task -/

/-- C18, evaluated: the draft store answers with 99 rows to List with offset 0 and limit
100 on an empty cache.  The slice expression of the goroutine is out of range: the
goroutine panics, and SetFirstPage is not among the calls made. -/
theorem refresh_slice_out_of_range :
    repository.slice (List.replicate 99 (sample 1)) 0 100 = none ∧
    ((fixedRepository (List.replicate 99 (sampleRow 1)) cache.Mem.empty).List 123 0 100).wait.2 = true ∧
    ((fixedRepository (List.replicate 99 (sampleRow 1)) cache.Mem.empty).List 123 0 100).wait.1.calls =
      [Call.GetFirstPage 123, Call.GetByAuthor 123 0 100] := by
  decide

/-! ## The percent probe -/

section

variable {E F : Type}

open percent

/-- The effect of Add when it does not panic. -/
theorem Add_eq (ops : Float64 F) (p : Percent E F) (err : Option E)
    (h1 : p.index < p.arr.length) (h2 : p.size ≠ 0) :
    p.Add ops err =
      some
        ({ size := p.size, index := (p.index + 1) % p.size,
           molecular :=
             p.molecular - (if p.isFilled && p.isMolecular (p.arr.getD p.index none) then 1 else 0) +
               (if p.isMolecular err then 1 else 0),
           isFilled := p.isFilled || decide ((p.index + 1) % p.size = 0),
           arr := p.arr.set p.index err, isMolecular := p.isMolecular, threshod := p.threshod },
         Percent.isCrashedWithoutLock ops
          { size := p.size, index := (p.index + 1) % p.size,
            molecular :=
              p.molecular - (if p.isFilled && p.isMolecular (p.arr.getD p.index none) then 1 else 0) +
                (if p.isMolecular err then 1 else 0),
            isFilled := p.isFilled || decide ((p.index + 1) % p.size = 0),
            arr := p.arr.set p.index err, isMolecular := p.isMolecular, threshod := p.threshod }) := by
  unfold Percent.Add
  rw [if_pos ⟨h1, h2⟩]
  cases hA : (p.isFilled && p.isMolecular (p.arr.getD p.index none)) <;>
    cases hB : p.isMolecular err <;>
    cases hC : p.isFilled <;>
    by_cases hD : (p.index + 1) % p.size = 0 <;>
    simp [hB, hC, hD]

end

section

variable {E F : Type}

open percent

theorem mod_ne_of_lt_window (j n size : Nat) (hjn : j < n) (hwin : n < j + size) :
    j % size ≠ n % size := by
  intro heq
  have h0 : (n - j) % size = 0 := Nat.sub_mod_eq_zero_of_mod_eq heq.symm
  rw [Nat.mod_eq_of_lt (by omega)] at h0
  omega

/-- One Add on a probe that follows the values added so far: it does not panic, the probe
follows the values with the new one appended, and the result is the comparison of the
quotient of molecular by the smaller of the number of values and the size with the
threshold. -/
theorem tracks_Add (ops : Float64 F) (size : Nat) (f : Option E → Bool) (th : F)
    (hsize : 1 ≤ size) (p : Percent E F) (errs : List (Option E)) (err : Option E)
    (h : p.tracks size f th errs) :
    ∃ p2, p.Add ops err =
        some (p2, ops.gt (ops.quot p2.molecular ((min (errs.length + 1) size : Nat) : Int)) th) ∧
      p2.tracks size f th (errs ++ [err]) := by
  obtain ⟨psize, index, molecular, isFilled, arr, isMolecular, threshod⟩ := p
  obtain ⟨hs, hl, hf, ht, hi, hfill, hm, hw⟩ := h
  simp only at hs hl hf ht hi hfill hm hw
  subst hs hf ht
  have hpos : 0 < psize := hsize
  have hidx : index < arr.length := by rw [hi, hl]; exact Nat.mod_lt _ hpos
  rw [Add_eq ops _ err hidx (by simpa using (Nat.pos_iff_ne_zero.mp hpos))]
  simp only
  have hindex : (index + 1) % psize = (errs.length + 1) % psize := by
    rw [hi, Nat.mod_add_mod]
  have hfilled2 : (isFilled || decide ((index + 1) % psize = 0)) =
      decide (psize ≤ errs.length + 1) := by
    by_cases hle2 : psize ≤ errs.length
    · have : psize ≤ errs.length + 1 := by omega
      simp [hfill, hle2, this]
    · by_cases hle : psize ≤ errs.length + 1
      · have heq : errs.length + 1 = psize := by omega
        simp [hindex, heq]
      · have hlt : errs.length + 1 < psize := by omega
        simp [hfill, hle2, hle, hindex, Nat.mod_eq_of_lt hlt]
  refine ⟨_, congrArg some (Prod.ext rfl ?_), ?_⟩
  · simp only [Percent.isCrashedWithoutLock, hfilled2]
    by_cases hle : psize ≤ errs.length + 1
    · simp [hle, Nat.min_eq_right hle]
    · have hlt : errs.length + 1 < psize := by omega
      simp [hle, hindex, Nat.mod_eq_of_lt hlt, Nat.min_eq_left (Nat.le_of_lt hlt)]
  · refine ⟨rfl, by simp [hl], rfl, rfl, by simp [hindex], by simp [hfilled2], ?_, ?_⟩
    · simp only [List.length_append, List.length_singleton]
      by_cases hle2 : psize ≤ errs.length
      · have hk : errs.length - psize < errs.length := by omega
        have hdrop : errs.drop (errs.length - psize) =
            errs[errs.length - psize] :: errs.drop (errs.length - psize + 1) :=
          List.drop_eq_getElem_cons hk
        have hold : arr.getD index none = errs[errs.length - psize] := by
          have h := hw (errs.length - psize) errs[errs.length - psize]
            (List.getElem?_eq_getElem hk) (by omega)
          rw [← Nat.mod_eq_sub_mod hle2, ← hi] at h
          simp [h]
        have hdrop2 : (errs ++ [err]).drop (errs.length + 1 - psize) =
            errs.drop (errs.length - psize + 1) ++ [err] := by
          rw [List.drop_append_of_le_length (by omega)]
          congr 2
          omega
        rw [hm, hdrop, hdrop2, hold]
        have hfl : isFilled = true := by simp [hfill, hle2]
        simp only [hfl, Bool.true_and, List.countP_cons, List.countP_append, List.countP_nil]
        split_ifs <;> push_cast <;> omega
      · have h0 : errs.length - psize = 0 := by omega
        have h1 : errs.length + 1 - psize = 0 := by omega
        have hfl : isFilled = false := by simp [hfill, hle2]
        rw [hm, h0, h1]
        simp only [hfl, Bool.false_and, List.drop_zero, List.countP_append, List.countP_cons,
          List.countP_nil, Bool.false_eq_true, if_false]
        split_ifs <;> push_cast <;> omega
    · intro j x hj hwin
      simp only [List.length_append, List.length_singleton] at hwin
      simp only
      by_cases hjn : j < errs.length
      · rw [List.getElem?_append_left hjn] at hj
        have hne := mod_ne_of_lt_window j errs.length psize hjn (by omega)
        rw [hi, List.getElem?_set_ne (Ne.symm hne)]
        exact hw j x hj (by omega)
      · by_cases hjeq : j = errs.length
        · subst hjeq
          simp only [List.getElem?_concat_length, Option.some.injEq] at hj
          rw [hi, List.getElem?_set_self (by rw [hl]; exact Nat.mod_lt _ hpos), hj]
        · rw [List.getElem?_eq_none (by simp; omega)] at hj
          cases hj

end

section

variable {E F : Type}

open percent

theorem tracks_NewPercent (size : Nat) (f : Option E → Bool) (th : F) (hsize : 1 ≤ size) :
    (NewPercent size f th).tracks size f th [] := by
  refine ⟨rfl, by simp [NewPercent], rfl, rfl, by simp [NewPercent], ?_, by simp [NewPercent], ?_⟩
  · have : ¬ size ≤ 0 := by omega
    simp [NewPercent, this]
  · intro j x hj
    simp at hj

theorem tracks_addAll (ops : Float64 F) (size : Nat) (f : Option E → Bool) (th : F)
    (hsize : 1 ≤ size) (more : List (Option E)) :
    ∀ (p : Percent E F) (errs : List (Option E)), p.tracks size f th errs →
      ∃ p2, p.addAll ops more = some p2 ∧ p2.tracks size f th (errs ++ more) := by
  induction more with
  | nil =>
    intro p errs h
    exact ⟨p, rfl, by simpa using h⟩
  | cons err rest ih =>
    intro p errs h
    obtain ⟨p1, hadd, h1⟩ := tracks_Add ops size f th hsize p errs err h
    obtain ⟨p2, hall, h2⟩ := ih p1 (errs ++ [err]) h1
    refine ⟨p2, ?_, by simpa using h2⟩
    simp only [Percent.addAll, hadd]
    exact hall

theorem addAll_concat (ops : Float64 F) (errs : List (Option E)) (err : Option E) :
    ∀ (p q : Percent E F) (q2 : Percent E F) (b : Bool), p.addAll ops errs = some q →
      q.Add ops err = some (q2, b) → p.addAll ops (errs ++ [err]) = some q2 := by
  induction errs with
  | nil =>
    intro p q q2 b h hq
    simp only [Percent.addAll, Option.some.injEq] at h
    subst h
    simp [Percent.addAll, hq]
  | cons e rest ih =>
    intro p q q2 b h hq
    simp only [Percent.addAll, List.cons_append] at h ⊢
    cases hp : p.Add ops e with
    | none => simp [hp] at h
    | some r =>
      obtain ⟨p1, b1⟩ := r
      simp only [hp] at h ⊢
      exact ih p1 q q2 b h hq

/-- C19: for a probe created with size at least 1, any sequence of Add calls runs without
panic, and after it molecular is the number of values among the last min(n, size) added
ones for which isMolecular holds, hence between 0 and min(n, size); the Add call that
brings the number of values to n returns true exactly when the quotient of molecular by
min(n, size) compares greater than the threshold. -/
theorem percent_counts_last_window (ops : Float64 F) (size : Nat) (f : Option E → Bool) (th : F)
    (hsize : 1 ≤ size) :
    (∀ all : List (Option E), ∃ p, (NewPercent size f th).addAll ops all = some p ∧
      p.molecular = (((all.drop (all.length - min all.length size)).countP f : Nat) : Int) ∧
      0 ≤ p.molecular ∧ p.molecular ≤ ((min all.length size : Nat) : Int)) ∧
    (∀ (errs : List (Option E)) (err : Option E), ∃ p p2 b,
      (NewPercent size f th).addAll ops errs = some p ∧ p.Add ops err = some (p2, b) ∧
      (NewPercent size f th).addAll ops (errs ++ [err]) = some p2 ∧
      (b = true ↔
        ops.gt (ops.quot p2.molecular ((min (errs ++ [err]).length size : Nat) : Int)) th = true)) := by
  have h0 := tracks_NewPercent size f th hsize
  refine ⟨?_, ?_⟩
  · intro all
    obtain ⟨p, hp, ht⟩ := tracks_addAll ops size f th hsize all _ [] h0
    simp only [List.nil_append] at ht
    obtain ⟨-, -, -, -, -, -, hm, -⟩ := ht
    have hidx : all.length - min all.length size = all.length - size := by omega
    refine ⟨p, hp, by rw [hm, hidx], by rw [hm]; exact Int.natCast_nonneg _, ?_⟩
    rw [hm]
    have hle := List.countP_le_length f (l := all.drop (all.length - size))
    have hlen : (all.drop (all.length - size)).length = min all.length size := by
      rw [List.length_drop]; omega
    rw [hlen] at hle
    exact_mod_cast hle
  · intro errs err
    obtain ⟨p, hp, ht⟩ := tracks_addAll ops size f th hsize errs _ [] h0
    simp only [List.nil_append] at ht
    obtain ⟨p2, hadd, -⟩ := tracks_Add ops size f th hsize p errs err ht
    refine ⟨p, p2, _, hp, hadd, addAll_concat ops errs err _ p p2 _ hp hadd, ?_⟩
    simp

end

/-- Witness of C19: a probe of size 2 with threshold one half, to which an error, nil and
an error are added. -/
theorem percent_counts_last_window_witness :
    ∃ p p2 b,
      (percent.NewPercent 2 (Option.isSome : Option Unit → Bool) ((1, 2) : Int × Int)).addAll
        percent.exactOps [some (), none] = some p ∧
      p.Add percent.exactOps (some ()) = some (p2, b) ∧
      (percent.NewPercent 2 (Option.isSome : Option Unit → Bool) ((1, 2) : Int × Int)).addAll
        percent.exactOps ([some (), none] ++ [some ()]) = some p2 ∧
      (b = true ↔
        percent.exactOps.gt
          (percent.exactOps.quot p2.molecular
            ((min ([some (), none] ++ [some ()]).length 2 : Nat) : Int)) (1, 2) = true) :=
  (percent_counts_last_window percent.exactOps 2 (Option.isSome : Option Unit → Bool) (1, 2)
    (by decide)).2 [some (), none] (some ())

end webook
